import Mathlib

/-!
Verification development for the `use-sandbox` repository.

The repository implements a `"use sandbox"` directive: a build-time transformer
(`packages/next/src/transformer.ts`) extracts annotated async functions into a
generated module, replaces them with stubs calling a runtime orchestrator
(`packages/sandbox/src/runtime.ts`), a bundler (`packages/next/src/bundler.ts`)
combines the generated modules, and a runner script executes functions inside a
VM, replying on stdout with a single JSON line.

This file shallowly embeds the relevant functions:
machine strings are Lean `String`s manipulated through `List Char` primitives
(the built-in JavaScript string functions `includes`, `sort`, `replace` are
re-implemented below so that every definition evaluates by kernel reduction);
the JSON values exchanged on the wire are modelled by an inductive `Json`;
the external SHA-256 digest (node `crypto`) is an explicit function parameter;
the SWC AST is mirrored by a mutual inductive family covering exactly the node
shapes the transformer dispatches on.
-/

namespace UseSandbox

/-! ## String primitives

`strIncludes hay nee` models JavaScript `hay.includes(nee)`.
`strLeB` models the default `Array.prototype.sort()` string comparison
(lexicographic by code unit; code points coincide for the identifiers involved).
-/

/-- Boolean prefix test on character lists. -/
def isPrefixOfC : List Char → List Char → Bool
  | [], _ => true
  | _ :: _, [] => false
  | a :: as, b :: bs => a == b && isPrefixOfC as bs

/-- Auxiliary scan for `strIncludes`. -/
def hasInfixAux (nee : List Char) : List Char → Bool
  | [] => nee.isEmpty
  | c :: t => isPrefixOfC nee (c :: t) || hasInfixAux nee t

/-- Model of JavaScript `hay.includes(nee)`. -/
def strIncludes (hay nee : String) : Bool :=
  hasInfixAux nee.toList hay.toList

/-- Lexicographic comparison of character lists (by code point). -/
def lexLe : List Char → List Char → Bool
  | [], _ => true
  | _ :: _, [] => false
  | a :: as, b :: bs => if a = b then lexLe as bs else decide (a.toNat < b.toNat)

/-- Model of the default JavaScript string `<=` used by `Array.prototype.sort()`. -/
def strLeB (a b : String) : Bool := lexLe a.toList b.toList

/-- The sort relation as a `Prop`, for use with `List.insertionSort`. -/
def strLeR (a b : String) : Prop := strLeB a b = true

instance : DecidableRel strLeR := fun a b => by unfold strLeR; infer_instance

instance : IsTotal String strLeR := ⟨by
  have hinj : ∀ x y : Char, x.toNat = y.toNat → x = y := by
    intro x y h
    have hv : x.val = y.val := UInt32.ext h
    cases x; cases y; simp_all
  have htot : ∀ a b : List Char, lexLe a b = true ∨ lexLe b a = true := by
    intro a
    induction a with
    | nil => intro b; left; rfl
    | cons x xs ih =>
      intro b
      cases b with
      | nil => right; rfl
      | cons y ys =>
        by_cases hxy : x = y
        · subst hxy
          rcases ih ys with h | h
          · left; simpa [lexLe] using h
          · right; simpa [lexLe] using h
        · have hne : x.toNat ≠ y.toNat := fun hc => hxy (hinj x y hc)
          rcases Nat.lt_or_ge x.toNat y.toNat with h | h
          · left; simp [lexLe, hxy, h]
          · right
            have hyx : y.toNat < x.toNat := lt_of_le_of_ne h (Ne.symm hne)
            have hne' : y ≠ x := fun hc => hxy hc.symm
            simp [lexLe, hne', hyx]
  intro a b
  exact htot a.toList b.toList⟩

instance : IsTrans String strLeR := ⟨by
  have htr : ∀ a b c : List Char, lexLe a b = true → lexLe b c = true →
      lexLe a c = true := by
    intro a
    induction a with
    | nil => intro b c _ _; rfl
    | cons x xs ih =>
      intro b c hab hbc
      cases b with
      | nil => simp [lexLe] at hab
      | cons y ys =>
        cases c with
        | nil => simp [lexLe] at hbc
        | cons z zs =>
          by_cases hxy : x = y
          · subst hxy
            by_cases hxz : x = z
            · subst hxz
              simp only [lexLe, if_pos rfl] at hab hbc ⊢
              exact ih ys zs hab hbc
            · simp only [lexLe, if_pos rfl] at hab
              simp only [lexLe, if_neg hxz] at hbc ⊢
              exact hbc
          · simp only [lexLe, if_neg hxy] at hab
            by_cases hyz : y = z
            · subst hyz
              simp only [lexLe, if_neg hxy]
              exact hab
            · simp only [lexLe, if_neg hyz] at hbc
              have h1 : x.toNat < y.toNat := by simpa using hab
              have h2 : y.toNat < z.toNat := by simpa using hbc
              have hxz : x ≠ z := by
                intro hc; subst hc; omega
              simp only [lexLe, if_neg hxz]
              simp only [decide_eq_true_eq]
              omega
  intro a b c hab hbc
  exact htr a.toList b.toList c.toList hab hbc⟩

/-- Model of JavaScript `Array.prototype.sort()` on an array of strings. -/
def sortStrings (l : List String) : List String := l.insertionSort strLeR

/-! ## JSON model

`Json` models the JSON values exchanged between host and VM. Serialisation to
the wire (`JSON.stringify`) is modelled by `Json.render`; the inverse
`JSON.parse` on whole stdout lines is modelled at the `Line` level below.
Numbers are modelled as integers and string escaping covers the characters that
occur in the protocol (`"` , `\` and newline).
-/

inductive Json where
  | null
  | bool (b : Bool)
  | num (n : Int)
  | str (s : String)
  | arr (elements : List Json)
  | obj (fields : List (String × Json))

/-- Escape of one character inside a JSON string literal. -/
def escapeChar (c : Char) : List Char :=
  if c = '"' then ['\\', '"']
  else if c = '\\' then ['\\', '\\']
  else if c = '\n' then ['\\', 'n']
  else [c]

/-- Escape of a string for inclusion in a JSON string literal. -/
def escapeJson (s : String) : String :=
  String.mk (s.toList.flatMap escapeChar)

mutual
/-- Model of `JSON.stringify` (compact form, no spaces). -/
def Json.render : Json → String
  | .null => "null"
  | .bool true => "true"
  | .bool false => "false"
  | .num n => toString n
  | .str s => "\"" ++ escapeJson s ++ "\""
  | .arr es => "[" ++ String.intercalate "," (renderElems es) ++ "]"
  | .obj fs => "\x7b" ++ String.intercalate "," (renderFields fs) ++ "\x7d"

/-- Renders the elements of a JSON array. -/
def renderElems : List Json → List String
  | [] => []
  | e :: es => Json.render e :: renderElems es

/-- Renders the fields of a JSON object. -/
def renderFields : List (String × Json) → List String
  | [] => []
  | (k, v) :: fs => ("\"" ++ escapeJson k ++ "\":" ++ Json.render v) :: renderFields fs
end

/-- Field access `j.k` on a parsed JSON value: `undefined` (`none`) unless `j`
is an object with field `k`. -/
def jsonLookup (j : Json) (k : String) : Option Json :=
  match j with
  | .obj fs => (fs.find? (fun p => p.1 == k)).map (·.2)
  | _ => none

/-- JavaScript truthiness of a parsed JSON value. -/
def Json.truthy : Json → Bool
  | .null => false
  | .bool b => b
  | .num n => !(n == 0)
  | .str s => !(s == "")
  | .arr _ => true
  | .obj _ => true

/-- Model of JavaScript `String(v)` coercion as applied to reply fields.
The protocol only ever carries strings in `__error` / `__stack`, so only the
`str` case is load-bearing. -/
def Json.coerceString : Json → String
  | .str s => s
  | j => j.render

/-! ## Runtime orchestrator (`packages/sandbox/src/runtime.ts`)

Source fidelity notes.
The VM's stdout is modelled as a `List Line`: each element is one line of the
text the command printed, tagged by whether `JSON.parse` succeeds on it
(`Line.json j` carries the parse result; `Line.raw` is a line that is not valid
JSON, e.g. plain `console.log` text). `renderStdout` recovers the raw text used
verbatim inside the wrapped error message.
-/

/-- A host-side JavaScript `Error` as observed by the caller: its `message` and
its `stack` when the orchestrator replaced the stack (`none` = default stack). -/
structure JsError where
  message : String
  stack : Option String
deriving DecidableEq

/-- One line of VM stdout. -/
inductive Line where
  | json (j : Json)
  | raw (s : String)

/-- Model of `JSON.parse` applied to one stdout line. -/
def Line.parse : Line → Option Json
  | .json j => some j
  | .raw _ => none

/-- The raw text of one stdout line. -/
def Line.render : Line → String
  | .json j => j.render
  | .raw s => s

/-- The raw stdout text: lines joined by newlines, as captured by the host. -/
def renderStdout (lines : List Line) : String :=
  String.intercalate "\n" (lines.map Line.render)

/-- Runner path constant (`runner.ts`, `RUNNER_SCRIPT_PATH`). -/
def RUNNER_SCRIPT_PATH : String := "/tmp/sandbox-runner.mjs"

/-- Embeds `executeInSandbox` lines 350–357: the payload object sent to the
runner; the `closureVars` field is present exactly when closure variables were
passed. -/
def buildPayload (args : List Json) (closureVars : Option (List (String × Json))) : Json :=
  match closureVars with
  | some cv => .obj [("args", .arr args), ("closureVars", .obj cv)]
  | none => .obj [("args", .arr args)]

/-- Embeds `executeInSandbox` lines 359–363: the argument vector of the
`node` command run in the VM. -/
def runnerCommandArgs (fnId : String) (payload : Json) : List String :=
  [RUNNER_SCRIPT_PATH, fnId, payload.render]

/-- The wrapped diagnostic message (`executeInSandbox` lines 385–387). -/
def sandboxFailedMsg (stdout stderr : String) : String :=
  "Sandbox execution failed.\nstdout: " ++ stdout ++ "\nstderr: " ++ stderr

/-- Embeds the reply-parsing part of `executeInSandbox` (runtime.ts lines
365–390): split stdout into lines, `JSON.parse` the last line (failure of the
parse, including empty stdout, yields the wrapped error), throw a reconstructed
error when the parsed object has a truthy `__error` (installing `__stack` as
the stack when truthy), otherwise return `__result`. -/
def parseSandboxOutput (stdout : List Line) (stderr : String) : Except JsError (Option Json) :=
  match stdout.getLast? with
  | none => .error ⟨sandboxFailedMsg (renderStdout stdout) stderr, none⟩
  | some lastLine =>
    match lastLine.parse with
    | none => .error ⟨sandboxFailedMsg (renderStdout stdout) stderr, none⟩
    | some parsed =>
      match jsonLookup parsed "__error" with
      | some e =>
        if e.truthy then
          .error ⟨e.coerceString,
            match jsonLookup parsed "__stack" with
            | some s => if s.truthy then some s.coerceString else none
            | none => none⟩
        else .ok (jsonLookup parsed "__result")
      | none => .ok (jsonLookup parsed "__result")

/-! ## Runner script (in-VM side)

Modelled from the spec: the runner revision matching the current
`runtime.ts` is not present under `src/` — `runtime.ts` imports
`SANDBOX_BUNDLE_PATH` from `runner.js` and invokes
`node <runnerPath> <fnId> <payloadJson>`, but the `RUNNER_SCRIPT` packed in
`src/packages/sandbox/src/runner.ts` is an earlier revision that exports no
`SANDBOX_BUNDLE_PATH`, reads three positional arguments
(`bundleUrl fnId argsJson`) and fetches the bundle over HTTP. The definitions
below model the missing current runner from spec §4.5 and §2 item 5: read the
function identifier and the JSON payload `\x7b args, closureVars? \x7d`, look
up the bundle export named by the identifier (failing with a diagnostic if
absent), prepend `closureVars` to the argument list when present, await the
call, and report the outcome on standard output as a single final JSON line
(`\x7b "__result": v \x7d` or `\x7b "__error": m, "__stack": s \x7d`).
The wire between `payloadJson` and the parsed payload is modelled at the
`Json` level (node's `JSON.parse ∘ JSON.stringify` identity is assumed).
-/

/-- Behaviour of one bundled function when called inside the VM: the stdout
lines it prints itself, then either a result value or a thrown error
(message, stack). -/
structure VMCallResult where
  logs : List Line
  outcome : Except (String × String) Json

/-- The installed bundle, as the runner sees it: exported symbol name to
function. -/
def VMBundle : Type := String → Option (List Json → VMCallResult)

/-- Modelled from the spec (§4.5 step 3): the call argument list the runner
builds from the payload — `closureVars` prepended when present, otherwise the
`args` array spread directly. -/
def runnerCallArgs (payload : Json) : List Json :=
  let args := match jsonLookup payload "args" with
    | some (.arr xs) => xs
    | _ => []
  match jsonLookup payload "closureVars" with
  | some cv => cv :: args
  | none => args

/-- Modelled from the spec (§4.5 step 4): the single JSON reply line. -/
def runnerReplyLine : Except (String × String) Json → Line
  | .ok v => .json (.obj [("__result", v)])
  | .error (m, s) => .json (.obj [("__error", .str m), ("__stack", .str s)])

/-- Modelled from the spec (§4.5): full stdout of one runner invocation. -/
def runnerStdout (bundle : VMBundle) (fnId : String) (payload : Json) : List Line :=
  match bundle fnId with
  | none => [.json (.obj [("__error", .str ("Function not found in bundle: " ++ fnId))])]
  | some fn =>
    let r := fn (runnerCallArgs payload)
    r.logs ++ [runnerReplyLine r.outcome]

/-- Composition of the host-side `executeInSandbox` with one runner invocation
in the VM: build the payload, run the runner, parse the reply. -/
def executeInSandboxModel (bundle : VMBundle) (fnId : String) (args : List Json)
    (closureVars : Option (List (String × Json))) (stderr : String) :
    Except JsError (Option Json) :=
  parseSandboxOutput (runnerStdout bundle fnId (buildPayload args closureVars)) stderr

/-! ## Sandbox pool and call context (`runtime.ts` lines 106–132, 311–338)

VM handles are modelled by naturals; `Sandbox.create` hands out `nextHandle`
and counts provisions in `createdCount`. The pool is the global key → VM map.
The `AsyncLocalStorage` call context is the explicit `Option SandboxCtxValue`
argument.
-/

/-- The call-context value (`context.ts`, `SandboxContextValue`). -/
structure SandboxCtxValue where
  sandbox : Nat
  sudoFlag : Bool
deriving DecidableEq

/-- Pool state: the global key → VM map plus provisioning bookkeeping. -/
structure PoolState where
  pool : List (String × Nat)
  nextHandle : Nat
  createdCount : Nat
deriving DecidableEq

/-- Map lookup (`this.pool.get(key)`). -/
def poolLookup (st : PoolState) (key : String) : Option Nat :=
  (st.pool.find? (fun p => p.1 == key)).map (·.2)

/-- Map insert (`this.pool.set(key, sandbox)`): overwrite if present, else append. -/
def poolSet (st : PoolState) (key : String) (vm : Nat) : PoolState :=
  { st with pool :=
      if st.pool.any (fun p => p.1 == key) then
        st.pool.map (fun p => if p.1 == key then (p.1, vm) else p)
      else st.pool ++ [(key, vm)] }

/-- Model of `Sandbox.create`: a fresh handle, one more provision. -/
def sandboxCreate (st : PoolState) : Nat × PoolState :=
  (st.nextHandle, { st with nextHandle := st.nextHandle + 1, createdCount := st.createdCount + 1 })

/-- Embeds `SandboxDefinition.run` (runtime.ts lines 106–132) up to entering
the context: get the pooled VM or create and insert one, and produce the
context value `\x7b sandbox, sudo \x7d` the callback runs under. -/
def runStep (st : PoolState) (key : String) (sd : Bool) : SandboxCtxValue × PoolState :=
  match poolLookup st key with
  | some vm => (⟨vm, sd⟩, st)
  | none =>
    let (vm, st') := sandboxCreate st
    (⟨vm, sd⟩, poolSet st' key vm)

/-- Embeds `__runSandboxFn` (runtime.ts lines 311–338) at the level of VM
choice: with a context present, dispatch to the context's VM with its sudo
flag, leaving all state alone; without one, create an ephemeral VM (never
pooled) and stop it afterwards. Returns (VM used, sudo used, state). -/
def runSandboxFnStep (ctx : Option SandboxCtxValue) (st : PoolState) :
    (Nat × Bool) × PoolState :=
  match ctx with
  | some c => ((c.sandbox, c.sudoFlag), st)
  | none =>
    let (vm, st') := sandboxCreate st
    ((vm, true), st')

/-- Embeds `SandboxDefinition.size` (runtime.ts lines 161–163). -/
def poolSize (st : PoolState) : Nat := st.pool.length

/-! ## Install-state store (`runner.ts` second part, `FileSystemStorage`) -/

/-- Character class `[a-zA-Z0-9_-]` of the sanitising regex. -/
def isSafeKeyChar (c : Char) : Bool :=
  ('a'.toNat ≤ c.toNat && c.toNat ≤ 'z'.toNat) ||
  ('A'.toNat ≤ c.toNat && c.toNat ≤ 'Z'.toNat) ||
  ('0'.toNat ≤ c.toNat && c.toNat ≤ '9'.toNat) ||
  c == '_' || c == '-'

/-- Embeds `FileSystemStorage.getFilePath`'s sanitisation
`sandboxKey.replace(/[^a-zA-Z0-9_-]/g, "_")`. -/
def sanitizeKey (k : String) : String :=
  String.mk (k.toList.map (fun c => if isSafeKeyChar c then c else '_'))

/-- The state file name for a key (path inside `.next/.sandbox-state/`). -/
def stateFilePath (k : String) : String := sanitizeKey k ++ ".json"

/-- The state directory, as file name → JSON contents (writes go through
`JSON.stringify`, reads through `JSON.parse`; the round-trip is modelled by
storing the `Json` value). -/
def StorageDir : Type := String → Option Json

/-- Embeds `FileSystemStorage.setInstalledHash`. -/
def setInstalledHash (d : StorageDir) (key hash now : String) : StorageDir :=
  fun p => if p = stateFilePath key then
    some (.obj [("bundleHash", .str hash), ("updatedAt", .str now)])
  else d p

/-- Embeds `FileSystemStorage.getInstalledHash`: read the state file, return
`data.bundleHash ?? null` (absent file, parse failure, or a null field give
`none`). -/
def getInstalledHash (d : StorageDir) (key : String) : Option Json :=
  match d (stateFilePath key) with
  | none => none
  | some j =>
    match jsonLookup j "bundleHash" with
    | none => none
    | some .null => none
    | some v => some v


/-! ## Transformer AST (`packages/next/src/transformer.ts`)

The mutual family below mirrors the SWC AST restricted to the node shapes the
transformer dispatches on; every constructor field corresponds to a node field
of the SWC JSON (fields that can hold no identifier node, such as spans and
operator strings, are omitted). Conventions: a `member` node's `property` and
an object key are stored as `Expr` (an `Expr.ident` stands for the SWC
`Identifier` node used for a static property or key, any other expression for
a computed one); `otherPat` / `otherExpr` / `otherStmt` stand for nodes of
types outside the transformer's switches whose fields hold no identifiers.
-/

mutual
inductive Pat where
  | ident (value : String)
  | objectPat (properties : List ObjPatProp)
  | arrayPat (elements : List (Option Pat))
  | restElement (argument : Pat)
  | assignPat (left : Pat) (right : Expr)
  | otherPat

inductive ObjPatProp where
  | keyValue (key : Expr) (value : Pat)
  | assignProp (key : String) (value : Option Expr)
  | restProp (argument : Pat)

inductive VarDeclarator where
  | mk (id : Pat) (init : Option Expr)

inductive ForInit where
  | varInit (declarations : List VarDeclarator)
  | exprInit (e : Expr)

inductive ObjProp where
  | keyValueProp (key : Expr) (value : Expr)
  | shorthand (value : String)
  | otherProp

inductive Expr where
  | ident (value : String)
  | strLit (value : String)
  | numLit (value : Int)
  | fnExpr (identifier : Option String) (params : List Pat) (body : Option (List Stmt)) (isAsync : Bool)
  | arrowBlock (params : List Pat) (stmts : List Stmt) (isAsync : Bool)
  | arrowExprBody (params : List Pat) (body : Expr) (isAsync : Bool)
  | call (callee : Expr) (arguments : List Expr)
  | superCallee
  | importCallee
  | member (object : Expr) (property : Expr)
  | objectLit (properties : List ObjProp)
  | arrayLit (elements : List (Option Expr))
  | cond (test : Expr) (consequent : Expr) (alternate : Expr)
  | binary (left : Expr) (right : Expr)
  | unary (argument : Expr)
  | awaitExpr (argument : Expr)
  | assign (left : Expr) (right : Expr)
  | templateLit (expressions : List Expr)
  | otherExpr

inductive Stmt where
  | exprStmt (expression : Expr)
  | varDecl (declarations : List VarDeclarator)
  | fnDecl (identifier : String) (params : List Pat) (body : Option (List Stmt)) (isAsync : Bool)
  | block (stmts : List Stmt)
  | ifStmt (test : Expr) (consequent : Stmt) (alternate : Option Stmt)
  | forStmt (finit : Option ForInit) (test : Option Expr) (update : Option Expr) (body : Stmt)
  | whileStmt (test : Expr) (body : Stmt)
  | returnStmt (argument : Option Expr)
  | tryStmt (blockStmts : List Stmt) (handler : Option (Option Pat × List Stmt)) (finalizer : Option (List Stmt))
  | otherStmt
end

/-- An import specifier (SWC `ImportSpecifier` variants). -/
inductive ImportSpec where
  | namedSpec (imported : Option String) (localName : String)
  | defaultSpec (localName : String)
  | namespaceSpec (localName : String)

/-- A module item, restricted to the shapes `walkModuleItem`
(transformer.ts lines 260–292) dispatches on. `stmtItem` covers the default
case for statements with a body; `otherItem` everything else. -/
inductive ModuleItem where
  | fnDeclItem (identifier : String) (params : List Pat) (body : Option (List Stmt)) (isAsync : Bool)
  | exportFnDecl (identifier : String) (params : List Pat) (body : Option (List Stmt)) (isAsync : Bool)
  | exportVarDecl (declarations : List VarDeclarator)
  | exportOtherDecl
  | exportDefaultFnExpr (identifier : Option String) (params : List Pat) (body : Option (List Stmt)) (isAsync : Bool)
  | exportDefaultOther
  | varDeclItem (declarations : List VarDeclarator)
  | importDecl (typeOnly : Bool) (specifiers : List ImportSpec) (source : String)
  | stmtItem (s : Stmt)
  | otherItem

/-! ## Parameter name extraction (`extractParamNames`, transformer.ts 190–232)

The SWC `Param` wrapper (`"pat" in param`) is transparent here: the walk
descends into the pattern either way.
-/

mutual
/-- Embeds `fromPattern` (transformer.ts 193–221). -/
def fromPattern : Pat → List String
  | .ident v => [v]
  | .objectPat props => fromProps props
  | .arrayPat elems => fromOptPats elems
  | .restElement p => fromPattern p
  | .assignPat l _ => fromPattern l
  | .otherPat => []

/-- Property cases of `fromPattern`'s `ObjectPattern` branch. -/
def fromProps : List ObjPatProp → List String
  | [] => []
  | .keyValue _ v :: ps => fromPattern v ++ fromProps ps
  | .assignProp k _ :: ps => [k] ++ fromProps ps
  | .restProp a :: ps => fromPattern a ++ fromProps ps

/-- Element cases of `fromPattern`'s `ArrayPattern` branch. -/
def fromOptPats : List (Option Pat) → List String
  | [] => []
  | none :: ps => fromOptPats ps
  | some p :: ps => fromPattern p ++ fromOptPats ps
end

/-- Embeds `extractParamNames` (transformer.ts 190–232). -/
def extractParamNames (params : List Pat) : List String :=
  params.flatMap fromPattern

/-! ## Printer

Models the SWC printer (`printSync`) on the supported nodes: a total,
structural printer. Only its application inside `printParams` (for the
generated module's parameter list) and `printAst` (for `bodySource`) is
observable to the claims; the exact layout of the unsupported branches is
immaterial.
-/

mutual
/-- Prints a pattern as parameter source. -/
def printPat : Pat → String
  | .ident v => v
  | .objectPat props => "\x7b " ++ String.intercalate ", " (printProps props) ++ " \x7d"
  | .arrayPat elems => "[" ++ String.intercalate ", " (printOptPats elems) ++ "]"
  | .restElement p => "..." ++ printPat p
  | .assignPat l r => printPat l ++ " = " ++ printExpr r
  | .otherPat => "_"

/-- Prints object-pattern properties. -/
def printProps : List ObjPatProp → List String
  | [] => []
  | .keyValue k v :: ps => (printExpr k ++ ": " ++ printPat v) :: printProps ps
  | .assignProp k none :: ps => k :: printProps ps
  | .assignProp k (some e) :: ps => (k ++ " = " ++ printExpr e) :: printProps ps
  | .restProp a :: ps => ("..." ++ printPat a) :: printProps ps

/-- Prints array-pattern elements. -/
def printOptPats : List (Option Pat) → List String
  | [] => []
  | none :: ps => "" :: printOptPats ps
  | some p :: ps => printPat p :: printOptPats ps

/-- Prints an expression. -/
def printExpr : Expr → String
  | .ident v => v
  | .strLit s => "\"" ++ s ++ "\""
  | .numLit n => toString n
  | .fnExpr i ps b _ =>
    "function " ++ (match i with | some v => v | none => "") ++ "(" ++
      String.intercalate ", " (printPats ps) ++ ") \x7b " ++
      (match b with | some ss => printStmtsSp ss | none => "") ++ " \x7d"
  | .arrowBlock ps ss _ =>
    "(" ++ String.intercalate ", " (printPats ps) ++ ") => \x7b " ++ printStmtsSp ss ++ " \x7d"
  | .arrowExprBody ps e _ =>
    "(" ++ String.intercalate ", " (printPats ps) ++ ") => " ++ printExpr e
  | .call c args => printExpr c ++ "(" ++ String.intercalate ", " (printExprs args) ++ ")"
  | .superCallee => "super"
  | .importCallee => "import"
  | .member o p => printExpr o ++ "." ++ printExpr p
  | .objectLit props => "\x7b " ++ String.intercalate ", " (printObjProps props) ++ " \x7d"
  | .arrayLit elems => "[" ++ String.intercalate ", " (printOptExprs elems) ++ "]"
  | .cond t c a => printExpr t ++ " ? " ++ printExpr c ++ " : " ++ printExpr a
  | .binary l r => printExpr l ++ " + " ++ printExpr r
  | .unary a => "!" ++ printExpr a
  | .awaitExpr a => "await " ++ printExpr a
  | .assign l r => printExpr l ++ " = " ++ printExpr r
  | .templateLit es => "`" ++ String.intercalate "" (printExprs es) ++ "`"
  | .otherExpr => "0"

/-- Prints a pattern list. -/
def printPats : List Pat → List String
  | [] => []
  | p :: ps => printPat p :: printPats ps

/-- Prints an expression list. -/
def printExprs : List Expr → List String
  | [] => []
  | e :: es => printExpr e :: printExprs es

/-- Prints optional array elements. -/
def printOptExprs : List (Option Expr) → List String
  | [] => []
  | none :: es => "" :: printOptExprs es
  | some e :: es => printExpr e :: printOptExprs es

/-- Prints object-literal properties. -/
def printObjProps : List ObjProp → List String
  | [] => []
  | .keyValueProp k v :: ps => (printExpr k ++ ": " ++ printExpr v) :: printObjProps ps
  | .shorthand v :: ps => v :: printObjProps ps
  | .otherProp :: ps => "0: 0" :: printObjProps ps

/-- Prints a statement. -/
def printStmt : Stmt → String
  | .exprStmt e => printExpr e ++ ";"
  | .varDecl ds => "const " ++ String.intercalate ", " (printDecls ds) ++ ";"
  | .fnDecl i ps b _ =>
    "function " ++ i ++ "(" ++ String.intercalate ", " (printPats ps) ++ ") \x7b " ++
      (match b with | some ss => printStmtsSp ss | none => "") ++ " \x7d"
  | .block ss => "\x7b " ++ printStmtsSp ss ++ " \x7d"
  | .ifStmt t c a =>
    "if (" ++ printExpr t ++ ") " ++ printStmt c ++
      (match a with | some s => " else " ++ printStmt s | none => "")
  | .forStmt fi t u b =>
    "for (" ++ (match fi with
        | some (.varInit ds) => "const " ++ String.intercalate ", " (printDecls ds)
        | some (.exprInit e) => printExpr e
        | none => "") ++ "; " ++
      (match t with | some e => printExpr e | none => "") ++ "; " ++
      (match u with | some e => printExpr e | none => "") ++ ") " ++ printStmt b
  | .whileStmt t b => "while (" ++ printExpr t ++ ") " ++ printStmt b
  | .returnStmt (some e) => "return " ++ printExpr e ++ ";"
  | .returnStmt none => "return;"
  | .tryStmt b h f =>
    "try \x7b " ++ printStmtsSp b ++ " \x7d" ++
      (match h with
        | some (p, ss) => " catch (" ++ (match p with | some pp => printPat pp | none => "") ++
            ") \x7b " ++ printStmtsSp ss ++ " \x7d"
        | none => "") ++
      (match f with | some ss => " finally \x7b " ++ printStmtsSp ss ++ " \x7d" | none => "")
  | .otherStmt => ";"

/-- Prints declarators. -/
def printDecls : List VarDeclarator → List String
  | [] => []
  | .mk pid init :: ds =>
    (printPat pid ++ (match init with | some e => " = " ++ printExpr e | none => "")) :: printDecls ds

/-- Prints statements separated by spaces (inline block form). -/
def printStmtsSp : List Stmt → String
  | [] => ""
  | [s] => printStmt s
  | s :: ss => printStmt s ++ " " ++ printStmtsSp ss
end

/-- Model of `printAst` (transformer.ts 115–129) on a statement list: the
statements printed line by line. -/
def printStmts (ss : List Stmt) : String :=
  String.intercalate "\n" (ss.map printStmt)

/-- Embeds `printParams` (transformer.ts 134–188): the parameter list as the
SWC printer lays it out between the parentheses. -/
def printParams (params : List Pat) : String :=
  String.intercalate ", " (params.map printPat)

/-- Embeds `isUseSandboxDirective` (transformer.ts 105–110). -/
def isUseSandboxDirective : Stmt → Bool
  | .exprStmt (.strLit v) => v == "use sandbox"
  | _ => false

/-- The `body.stmts.length > 0 && isUseSandboxDirective(body.stmts[0])` check
(transformer.ts 333–334, 361–362). -/
def hasSandboxDirective (stmts : List Stmt) : Bool :=
  match stmts.head? with
  | some s0 => isUseSandboxDirective s0
  | none => false

/-! ## Closure-variable detection (`detectClosureVars`, transformer.ts 567–622)

The source walks the body statements after the directive with a reflective
`collectRefs` that visits every field of every node except `span` and `type`,
special-casing two node types: an `Identifier` is added to the `referenced`
set, and a `VariableDeclaration` adds its `Identifier`-formed declarator ids
to `locallyDeclared` and recurses only into the initialisers. The mutual
functions below reproduce that walk as a pure collector returning, for each
node, the pair (identifiers added to `referenced`, identifiers added to
`locallyDeclared`); since neither set is consulted during the walk and the
final result filters the deduplicated `referenced` set and sorts it, the
stateful JavaScript accumulation and this pure collection define the same
`detectClosureVars` function.
-/

/-- Componentwise concatenation of (referenced, locallyDeclared) pairs. -/
def pcat (a b : List String × List String) : List String × List String :=
  (a.1 ++ b.1, a.2 ++ b.2)

mutual
/-- The reflective walk on a statement. -/
def crStmt : Stmt → List String × List String
  | .exprStmt e => crExpr e
  | .varDecl ds => crDecls ds
  | .fnDecl i ps b _ => pcat ([i], []) (pcat (crPats ps) (crOptStmts b))
  | .block ss => crStmts ss
  | .ifStmt t c a => pcat (crExpr t) (pcat (crStmt c) (crOptStmt a))
  | .forStmt fi t u b =>
    pcat (crForInit fi) (pcat (crOptExpr t) (pcat (crOptExpr u) (crStmt b)))
  | .whileStmt t b => pcat (crExpr t) (crStmt b)
  | .returnStmt a => crOptExpr a
  | .tryStmt b h f => pcat (crStmts b) (pcat (crHandler h) (crOptStmts f))
  | .otherStmt => ([], [])

/-- The reflective walk on a statement list. -/
def crStmts : List Stmt → List String × List String
  | [] => ([], [])
  | s :: ss => pcat (crStmt s) (crStmts ss)

/-- The reflective walk on an optional statement. -/
def crOptStmt : Option Stmt → List String × List String
  | none => ([], [])
  | some s => crStmt s

/-- The reflective walk on an optional block. -/
def crOptStmts : Option (List Stmt) → List String × List String
  | none => ([], [])
  | some ss => crStmts ss

/-- The special `VariableDeclaration` case: `Identifier` declarator ids go to
`locallyDeclared`, only the initialisers are walked further. -/
def crDecls : List VarDeclarator → List String × List String
  | [] => ([], [])
  | .mk pid init :: ds =>
    pcat ([], match pid with | .ident v => [v] | _ => []) (pcat (crOptExpr init) (crDecls ds))

/-- The reflective walk on a `for` initialiser (a `VariableDeclaration` node
hits the special case). -/
def crForInit : Option ForInit → List String × List String
  | none => ([], [])
  | some (.varInit ds) => crDecls ds
  | some (.exprInit e) => crExpr e

/-- The reflective walk on a `catch` clause (its parameter is a pattern whose
identifier nodes are collected as references). -/
def crHandler : Option (Option Pat × List Stmt) → List String × List String
  | none => ([], [])
  | some (p, ss) => pcat (crOptPat p) (crStmts ss)

/-- The reflective walk on an expression. -/
def crExpr : Expr → List String × List String
  | .ident v => ([v], [])
  | .strLit _ => ([], [])
  | .numLit _ => ([], [])
  | .fnExpr i ps b _ =>
    pcat (match i with | some v => ([v], []) | none => ([], []))
      (pcat (crPats ps) (crOptStmts b))
  | .arrowBlock ps ss _ => pcat (crPats ps) (crStmts ss)
  | .arrowExprBody ps e _ => pcat (crPats ps) (crExpr e)
  | .call c args => pcat (crExpr c) (crExprs args)
  | .superCallee => ([], [])
  | .importCallee => ([], [])
  | .member o p => pcat (crExpr o) (crExpr p)
  | .objectLit props => crObjProps props
  | .arrayLit elems => crOptExprs elems
  | .cond t c a => pcat (crExpr t) (pcat (crExpr c) (crExpr a))
  | .binary l r => pcat (crExpr l) (crExpr r)
  | .unary a => crExpr a
  | .awaitExpr a => crExpr a
  | .assign l r => pcat (crExpr l) (crExpr r)
  | .templateLit es => crExprs es
  | .otherExpr => ([], [])

/-- The reflective walk on an expression list. -/
def crExprs : List Expr → List String × List String
  | [] => ([], [])
  | e :: es => pcat (crExpr e) (crExprs es)

/-- The reflective walk on an optional expression. -/
def crOptExpr : Option Expr → List String × List String
  | none => ([], [])
  | some e => crExpr e

/-- The reflective walk on optional array elements. -/
def crOptExprs : List (Option Expr) → List String × List String
  | [] => ([], [])
  | none :: es => crOptExprs es
  | some e :: es => pcat (crExpr e) (crOptExprs es)

/-- The reflective walk on object-literal properties (identifier keys and
shorthand properties are `Identifier` nodes, hence references). -/
def crObjProps : List ObjProp → List String × List String
  | [] => ([], [])
  | .keyValueProp k v :: ps => pcat (crExpr k) (pcat (crExpr v) (crObjProps ps))
  | .shorthand v :: ps => pcat ([v], []) (crObjProps ps)
  | .otherProp :: ps => crObjProps ps

/-- The reflective walk on a pattern (an `Identifier` pattern is the same
node type as an identifier expression, hence a reference). -/
def crPat : Pat → List String × List String
  | .ident v => ([v], [])
  | .objectPat props => crPatProps props
  | .arrayPat elems => crOptPats elems
  | .restElement p => crPat p
  | .assignPat l r => pcat (crPat l) (crExpr r)
  | .otherPat => ([], [])

/-- The reflective walk on object-pattern properties (identifier keys are
`Identifier` nodes, hence references). -/
def crPatProps : List ObjPatProp → List String × List String
  | [] => ([], [])
  | .keyValue k v :: ps => pcat (crExpr k) (pcat (crPat v) (crPatProps ps))
  | .assignProp k val :: ps => pcat ([k], []) (pcat (crOptExpr val) (crPatProps ps))
  | .restProp a :: ps => pcat (crPat a) (crPatProps ps)

/-- The reflective walk on a pattern list. -/
def crPats : List Pat → List String × List String
  | [] => ([], [])
  | p :: ps => pcat (crPat p) (crPats ps)

/-- The reflective walk on optional pattern elements. -/
def crOptPats : List (Option Pat) → List String × List String
  | [] => ([], [])
  | none :: ps => crOptPats ps
  | some p :: ps => pcat (crPat p) (crOptPats ps)

/-- The reflective walk on an optional pattern. -/
def crOptPat : Option Pat → List String × List String
  | none => ([], [])
  | some p => crPat p
end

/-- Embeds `isBuiltIn`'s closed set (transformer.ts 632–679). -/
def builtinNames : List String :=
  ["undefined", "null", "true", "false", "NaN", "Infinity", "globalThis",
   "console", "process", "Buffer", "require", "module", "exports",
   "__dirname", "__filename", "Promise", "Object", "Array", "String",
   "Number", "Boolean", "Function", "Symbol", "Error", "TypeError",
   "ReferenceError", "JSON", "Math", "Date", "RegExp", "Map", "Set",
   "WeakMap", "WeakSet", "Proxy", "Reflect", "setTimeout", "setInterval",
   "clearTimeout", "clearInterval", "setImmediate", "clearImmediate",
   "queueMicrotask"]

/-- Embeds `isBuiltIn` (transformer.ts 632–679). -/
def isBuiltIn (name : String) : Bool := builtinNames.contains name

/-- Embeds `isDeclaredInScope` (transformer.ts 624–630): the scope chain is a
list of declared-name sets, innermost first. -/
def isDeclaredInScope (name : String) : List (List String) → Bool
  | [] => false
  | sc :: rest => sc.contains name || isDeclaredInScope name rest

/-- Embeds `detectClosureVars` (transformer.ts 567–622): walk the body after
the directive with `collectRefs`, then keep each referenced name that is not
locally declared, not built-in, and declared in some enclosing scope; sort the
result. Set insertion order is irrelevant after the final sort, so the
deduplicated pure collection equals the JavaScript `Set` accumulation. -/
def detectClosureVars (body : List Stmt) (params : List String)
    (parentScope : List (List String)) : List String :=
  let walked := crStmts (body.drop 1)
  let referenced := walked.1.dedup
  let locallyDeclared := params ++ walked.2
  sortStrings (referenced.filter (fun n =>
    !(locallyDeclared.contains n) && !(isBuiltIn n) && isDeclaredInScope n parentScope))

/-! ## Stable function ids (`generateFnId`, transformer.ts 93–103)

`hashString` (sha256 hex, first 8 characters) is node `crypto`; it enters the
embedding as the explicit `digest` parameter threaded through the walk.
-/

/-- Embeds `generateFnId` (transformer.ts 93–99). -/
def generateFnId (digest : String → String) (filename : String)
    (scopePath : List String) : String :=
  let fnName := String.intercalate "$" scopePath
  let stableKey := filename ++ "/" ++ fnName
  fnName ++ "_" ++ digest stableKey

/-- Index of the first occurrence of `marker` in a character list. -/
def findMarkerIdx (marker : List Char) : List Char → Option Nat
  | [] => if isPrefixOfC marker [] then some 0 else none
  | c :: t =>
    if isPrefixOfC marker (c :: t) then some 0
    else (findMarkerIdx marker t).map (· + 1)

/-- Model of `s.replace(/^.*?\/m\//, "keep")` for a literal marker `/m/`:
the shortest prefix ending in the first occurrence of the marker is replaced. -/
def stripThroughMarker (marker keep : String) (s : String) : String :=
  match findMarkerIdx marker.toList s.toList with
  | some i => keep ++ String.mk (s.toList.drop (i + marker.toList.length))
  | none => s

/-- Embeds the filename normalisation of `transform` (transformer.ts 944–947):
backslashes to slashes, then keep from the first `/app/` onwards, then from
the first `/src/` onwards. -/
def normalizeFilename (filename : String) : String :=
  let s1 := String.mk (filename.toList.map (fun c => if c = '\\' then '/' else c))
  let s2 := stripThroughMarker "/app/" "app/" s1
  stripThroughMarker "/src/" "src/" s2

/-! ## Collection (`collectSandboxFunction` and the module walk) -/

/-- Embeds `AstLocation` (transformer.ts 66–75). -/
inductive AstLocation where
  | moduleItemLoc (index : Nat)
  | exportDeclLoc (index : Nat)
  | exportDefaultLoc (index : Nat)
  | varDeclaratorLoc (moduleIndex declIndex : Nat)
  | exportVarDeclaratorLoc (moduleIndex declIndex : Nat)
deriving DecidableEq

/-- Embeds `SandboxFunction` (transformer.ts 45–64). -/
structure SandboxFunction where
  fnId : String
  originalName : String
  scopePath : List String
  params : List String
  closureVars : List String
  bodySource : String
  fullSource : String
  isAsync : Bool
  astLocation : AstLocation
deriving DecidableEq

/-- Set-style insertion used for `ScopeInfo.declared` (a JavaScript `Set`). -/
def insertName (s : List String) (n : String) : List String :=
  if s.contains n then s else s ++ [n]

/-- Embeds `collectSandboxFunction` (transformer.ts 519–565). The `body`
argument includes the directive statement at its head, exactly as the source's
`body.stmts`. -/
def collectSandboxFunction (digest : String → String) (filename : String)
    (ctxScopePath : List String) (currentScope : List (List String))
    (fnParams : List Pat) (body : List Stmt) (name : String) (isAsync : Bool)
    (astLocation : AstLocation) : SandboxFunction :=
  let scopePath := ctxScopePath ++ [name]
  let isNested := ctxScopePath.length > 0
  let paramNames := extractParamNames fnParams
  let paramsSource := printParams fnParams
  let closureVars := if isNested then detectClosureVars body paramNames currentScope else []
  let bodyStmts := body.drop 1
  let bodySource := if bodyStmts.length > 0 then printStmts bodyStmts else ""
  let fnId := generateFnId digest filename scopePath
  let closureParam := if closureVars.length > 0 then "__closure" else ""
  let allParams := if closureParam ≠ "" then
      closureParam ++ (if paramsSource ≠ "" then ", " ++ paramsSource else "")
    else paramsSource
  let fullSource := "export async function " ++ fnId ++ "(" ++ allParams ++ ") \x7b\n" ++
    (if closureVars.length > 0 then
      "  const \x7b " ++ String.intercalate ", " closureVars ++ " \x7d = __closure;\n"
    else "") ++
    "  " ++ bodySource ++ "\n\x7d"
  ⟨fnId, name, scopePath, paramNames, closureVars, bodySource, fullSource, isAsync, astLocation⟩

/-- Embeds `walkFunctionDecl` (transformer.ts 323–341) minus the body walk:
`walkFunctionBody` and the statement/expression walkers it reaches
(lines 371–513) perform scope tracking only and contain no call to
`collectSandboxFunction`, so they contribute no collected record. -/
def walkFunctionDeclCollect (digest : String → String) (filename : String)
    (ctxScopePath : List String) (chain : List (List String))
    (name : String) (params : List Pat) (body : Option (List Stmt))
    (isAsync : Bool) (loc : AstLocation) : List SandboxFunction :=
  match body with
  | none => []
  | some stmts =>
    if hasSandboxDirective stmts then
      [collectSandboxFunction digest filename ctxScopePath chain params stmts name isAsync loc]
    else []

/-- Embeds `walkFunctionExpr` (transformer.ts 343–369) minus the body walk;
`bodyBlock` is the `BlockStatement` body or `none` (an arrow with an
expression body contributes nothing). -/
def walkFunctionExprCollect (digest : String → String) (filename : String)
    (ctxScopePath : List String) (chain : List (List String))
    (name : String) (params : List Pat) (bodyBlock : Option (List Stmt))
    (isAsync : Bool) (loc : AstLocation) : List SandboxFunction :=
  match bodyBlock with
  | none => []
  | some stmts =>
    if hasSandboxDirective stmts then
      [collectSandboxFunction digest filename ctxScopePath chain params stmts name isAsync loc]
    else []

/-- The `BlockStatement`-body view of a variable initialiser that is a
function or arrow expression (`walkVarDecl` lines 306–318), with its name,
parameters and async flag; `none` when the initialiser is no function. -/
def fnInitView : Option Expr → Option (List Pat × Option (List Stmt) × Bool)
  | some (.fnExpr _ ps b a) => some (ps, b, a)
  | some (.arrowBlock ps ss a) => some (ps, some ss, a)
  | some (.arrowExprBody ps _ a) => some (ps, none, a)
  | _ => none

/-- Embeds the declarator loop of `walkVarDecl` (transformer.ts 294–321),
threading the module scope (`ctx.currentScope.declared`). Returns the updated
scope and the records collected. -/
def walkVarDeclCollect (digest : String → String) (filename : String)
    (cur : List String) (moduleIndex : Nat) (isExport : Bool) :
    List VarDeclarator → Nat → List String × List SandboxFunction
  | [], _ => (cur, [])
  | .mk pid init :: rest, declIndex =>
    let cur' := match pid with
      | .ident v => insertName cur v
      | _ => cur
    let name := match pid with
      | .ident v => v
      | _ => "anonymous"
    let loc : AstLocation := if isExport then .exportVarDeclaratorLoc moduleIndex declIndex
      else .varDeclaratorLoc moduleIndex declIndex
    let collected := match fnInitView init with
      | some (ps, bodyBlock, isAsync) =>
        walkFunctionExprCollect digest filename [] [cur'] name ps bodyBlock isAsync loc
      | none => []
    let (cur'', collectedRest) :=
      walkVarDeclCollect digest filename cur' moduleIndex isExport rest (declIndex + 1)
    (cur'', collected ++ collectedRest)

/-- Embeds `walkModuleItem` (transformer.ts 260–292), threading the module
scope. The default branch (`stmtItem`) reaches `walkStatement`, which tracks
scope but never collects; its scope additions are unobservable because
`detectClosureVars` is unreachable from module level, so it is modelled as a
no-op. -/
def walkModuleItemCollect (digest : String → String) (filename : String)
    (cur : List String) (item : ModuleItem) (index : Nat) :
    List String × List SandboxFunction :=
  match item with
  | .fnDeclItem name ps b isAsync =>
    let cur' := insertName cur name
    (cur', walkFunctionDeclCollect digest filename [] [cur'] name ps b isAsync (.moduleItemLoc index))
  | .exportFnDecl name ps b isAsync =>
    let cur' := insertName cur name
    (cur', walkFunctionDeclCollect digest filename [] [cur'] name ps b isAsync (.exportDeclLoc index))
  | .exportVarDecl ds => walkVarDeclCollect digest filename cur index true ds 0
  | .varDeclItem ds => walkVarDeclCollect digest filename cur index false ds 0
  | .exportDefaultFnExpr _ ps b isAsync =>
    (cur, walkFunctionExprCollect digest filename [] [cur] "default" ps b isAsync (.exportDefaultLoc index))
  | .exportOtherDecl => (cur, [])
  | .exportDefaultOther => (cur, [])
  | .importDecl _ _ _ => (cur, [])
  | .stmtItem _ => (cur, [])
  | .otherItem => (cur, [])

/-- Iterates `walkModuleItemCollect` over the module body in order. -/
def walkModuleItemsCollect (digest : String → String) (filename : String) :
    List ModuleItem → Nat → List String → List SandboxFunction
  | [], _, _ => []
  | item :: rest, index, cur =>
    let (cur', collected) := walkModuleItemCollect digest filename cur item index
    collected ++ walkModuleItemsCollect digest filename rest (index + 1) cur'

/-- Embeds `walkModule` (transformer.ts 254–258) with the root context of
`transform` (empty scope, empty scope path). -/
def walkModule (digest : String → String) (filename : String)
    (m : List ModuleItem) : List SandboxFunction :=
  walkModuleItemsCollect digest filename m 0 []

/-! ## Stub generation and AST mutation (transformer.ts 688–808) -/

/-- Embeds `generateStubCode` (transformer.ts 714–741), literally rebuilding
its template strings. -/
def generateStubCode (fn : SandboxFunction) : String :=
  let asyncKeyword := if fn.isAsync then "async " else ""
  let paramList := String.intercalate ", " fn.params
  let argsArray := if fn.params.length > 0 then
      "[" ++ String.intercalate ", " fn.params ++ "]" else "[]"
  let closureArg := if fn.closureVars.length > 0 then
      ", closureVars: \x7b " ++ String.intercalate ", " fn.closureVars ++ " \x7d" else ""
  if fn.scopePath.length == 1 then
    asyncKeyword ++ "function " ++ fn.originalName ++ "(" ++ paramList ++ ") \x7b\n" ++
      "  return __sandbox_runSandboxFn(\x7b\n    fnId: \"" ++ fn.fnId ++
      "\",\n    args: " ++ argsArray ++ closureArg ++ "\n  \x7d);\n\x7d"
  else
    "(" ++ paramList ++ ") => __sandbox_runSandboxFn(\x7b\n  fnId: \"" ++ fn.fnId ++
      "\",\n  args: " ++ argsArray ++ closureArg ++ "\n\x7d)"

/-- Word characters of the regex `\w`. -/
def isWordChar (c : Char) : Bool := c.isAlpha || c.isDigit || c == '_'

/-- Model of `code.replace(/^async function \w+/, "async function")`. -/
def replaceStubHeadAsync (code : String) : String :=
  let cs := code.toList
  let pre := "async function ".toList
  if isPrefixOfC pre cs then
    let rest := cs.drop pre.length
    let w := rest.takeWhile isWordChar
    if w.length > 0 then String.mk ("async function".toList ++ rest.drop w.length)
    else code
  else code

/-- Model of `code.replace(/^function/, "async function")`. -/
def replaceStubHeadFn (code : String) : String :=
  let cs := code.toList
  let pre := "function".toList
  if isPrefixOfC pre cs then String.mk ("async function".toList ++ cs.drop pre.length)
  else code

/-- The inline arrow-stub template of the `var-declarator` and
`export-var-declarator` cases (transformer.ts 787–791, 798–802). -/
def stubDeclaratorCode (fn : SandboxFunction) : String :=
  "async (" ++ String.intercalate ", " fn.params ++
    ") => __sandbox_runSandboxFn(\x7b fnId: \"" ++ fn.fnId ++ "\", args: [" ++
    String.intercalate ", " fn.params ++ "] \x7d)"

/-- A declarator after mutation: untouched, or with its initialiser replaced
by the parsed arrow stub (represented by its source text). -/
inductive OutDeclarator where
  | orig (d : VarDeclarator)
  | stubbed (id : Pat) (arrowCode : String)

/-- A module item after mutation. Stub nodes produced by `parseStubToAst` and
`parseArrowStubToAst` are represented by their source text (the external
parse/print round-trip is the identity on them); the export wrappers record
where the stub sits. -/
inductive OutItem where
  | orig (item : ModuleItem)
  | stubFn (code : String)
  | exportStubFn (code : String)
  | exportDefaultStub (code : String)
  | varDeclOut (isExport : Bool) (declarations : List OutDeclarator)

/-- Replaces the initialiser of the declarator at `declIndex`. -/
def stubDeclAt (ds : List OutDeclarator) (declIndex : Nat) (code : String) :
    List OutDeclarator :=
  ds.mapIdx (fun j d => if j = declIndex then
      (match d with
        | .orig (.mk pid _) => .stubbed pid code
        | .stubbed pid _ => .stubbed pid code)
    else d)

/-- One iteration of the mutation loop of `applyAstMutations`
(transformer.ts 746–808): nested functions (`scopePath.length !== 1`) are
skipped — "Only handle top-level functions for now". -/
def applyOneMutation (outs : List OutItem) (fn : SandboxFunction) : List OutItem :=
  if fn.scopePath.length ≠ 1 then outs
  else
    let stubCode := generateStubCode fn
    match fn.astLocation with
    | .moduleItemLoc i => outs.set i (.stubFn stubCode)
    | .exportDeclLoc i => outs.set i (.exportStubFn stubCode)
    | .exportDefaultLoc i =>
      outs.set i (.exportDefaultStub (replaceStubHeadFn (replaceStubHeadAsync stubCode)))
    | .varDeclaratorLoc mi di =>
      match outs.get? mi with
      | some (.orig (.varDeclItem ds)) =>
        outs.set mi (.varDeclOut false (stubDeclAt (ds.map .orig) di (stubDeclaratorCode fn)))
      | some (.varDeclOut ex ds) =>
        outs.set mi (.varDeclOut ex (stubDeclAt ds di (stubDeclaratorCode fn)))
      | _ => outs
    | .exportVarDeclaratorLoc mi di =>
      match outs.get? mi with
      | some (.orig (.exportVarDecl ds)) =>
        outs.set mi (.varDeclOut true (stubDeclAt (ds.map .orig) di (stubDeclaratorCode fn)))
      | some (.varDeclOut ex ds) =>
        outs.set mi (.varDeclOut ex (stubDeclAt ds di (stubDeclaratorCode fn)))
      | _ => outs

/-- Embeds `applyAstMutations` (transformer.ts 746–808). -/
def applyAstMutations (m : List ModuleItem) (fns : List SandboxFunction) :
    List OutItem :=
  fns.foldl applyOneMutation (m.map .orig)

/-! ## Generated module (transformer.ts 810–915) -/

/-- Embeds `reconstructImport` (transformer.ts 822–864). -/
def reconstructImport (specifiers : List ImportSpec) (source : String) : String :=
  if specifiers.isEmpty then "import \"" ++ source ++ "\";"
  else
    let defaultImports := specifiers.filterMap (fun s => match s with
      | .defaultSpec l => some l
      | _ => none)
    let namedImports := specifiers.filterMap (fun s => match s with
      | .namedSpec imported l => some (match imported with
          | some imp => if imp == l then imp else imp ++ " as " ++ l
          | none => l)
      | _ => none)
    let namespaceImport := match (specifiers.filterMap (fun s => match s with
        | .namespaceSpec l => some ("* as " ++ l)
        | _ => none)).getLast? with
      | some x => x
      | none => ""
    let parts := (match defaultImports.head? with
        | some d0 => [d0]
        | none => []) ++
      (if namespaceImport ≠ "" then [namespaceImport] else []) ++
      (if namedImports.length > 0 then
        ["\x7b " ++ String.intercalate ", " namedImports ++ " \x7d"] else [])
    "import " ++ String.intercalate ", " parts ++ " from \"" ++ source ++ "\";"

/-- Embeds `extractRelevantImports` (transformer.ts 869–892): type-only ones
dropped, `@use-sandbox/core` imports rewritten to the shell subpath
when they bind `$` (once per matching specifier) and dropped otherwise,
everything else reconstructed verbatim. -/
def extractRelevantImports : List ModuleItem → List String
  | [] => []
  | .importDecl typeOnly specs src :: rest =>
    if typeOnly then extractRelevantImports rest
    else if src == "@use-sandbox/core" then
      (specs.filterMap (fun s => match s with
        | .namedSpec _ l =>
          if l == "$" then some "import \x7b $ \x7d from \"@use-sandbox/core/shell\";"
          else none
        | _ => none)) ++ extractRelevantImports rest
    else reconstructImport specs src :: extractRelevantImports rest
  | _ :: rest => extractRelevantImports rest

/-- Model of node `path.basename` on forward-slash paths. -/
def basenameStr (p : String) : String :=
  String.mk ((p.toList.reverse.takeWhile (fun c => !(c == '/'))).reverse)

/-- Embeds `generateSandboxFile` (transformer.ts 894–915). -/
def generateSandboxFile (fns : List SandboxFunction) (originalPath : String)
    (m : List ModuleItem) : String :=
  let lines := ["// Auto-generated sandbox file for " ++ basenameStr originalPath,
    "// Do not edit directly - regenerated on build", ""] ++
    extractRelevantImports m ++ [""] ++ fns.flatMap (fun f => [f.fullSource, ""])
  String.intercalate "\n" lines

/-! ## Transform entry point (transformer.ts 921–991) -/

/-- The runtime import unshifted by `addRuntimeImport` (transformer.ts 813–817). -/
def runtimeImportItem : ModuleItem :=
  .importDecl false [.namedSpec (some "__runSandboxFn") "__sandbox_runSandboxFn"]
    "@use-sandbox/core/runtime"

/-- Prints an unchanged module item (model of the SWC printer at module level). -/
def printModuleItem : ModuleItem → String
  | .fnDeclItem i ps b a => printStmt (.fnDecl i ps b a)
  | .exportFnDecl i ps b a => "export " ++ printStmt (.fnDecl i ps b a)
  | .exportVarDecl ds => "export const " ++ String.intercalate ", " (printDecls ds) ++ ";"
  | .exportOtherDecl => "export ;"
  | .exportDefaultFnExpr i ps b a =>
    "export default " ++ printExpr (.fnExpr i ps b a) ++ ";"
  | .exportDefaultOther => "export default ;"
  | .varDeclItem ds => "const " ++ String.intercalate ", " (printDecls ds) ++ ";"
  | .importDecl _ specs src => reconstructImport specs src
  | .stmtItem s => printStmt s
  | .otherItem => ";"

/-- Prints a declarator after mutation. -/
def printOutDeclarator : OutDeclarator → String
  | .orig (.mk pid init) =>
    printPat pid ++ (match init with | some e => " = " ++ printExpr e | none => "")
  | .stubbed pid code => printPat pid ++ " = " ++ code

/-- Prints a module item after mutation. -/
def printOutItem : OutItem → String
  | .orig item => printModuleItem item
  | .stubFn code => code
  | .exportStubFn code => "export " ++ code
  | .exportDefaultStub code => "export default " ++ code
  | .varDeclOut isExport ds =>
    (if isExport then "export " else "") ++ "const " ++
      String.intercalate ", " (ds.map printOutDeclarator) ++ ";"

/-- Prints the mutated module (model of `printSync(module)`). -/
def printOutModule (outs : List OutItem) : String :=
  String.intercalate "\n" (outs.map printOutItem)

/-- Embeds the generated-file path computation
`filename.replace(/\.(tsx?|jsx?)$/, ".sandbox.ts")` (transformer.ts 983). -/
def endsWithC (s suf : String) : Bool :=
  isPrefixOfC suf.toList.reverse s.toList.reverse

/-- See `endsWithC`; the four extensions of the regex, longest first. -/
def sandboxFilePathOf (filename : String) : String :=
  let cs := filename.toList
  if endsWithC filename ".tsx" then String.mk (cs.take (cs.length - 4)) ++ ".sandbox.ts"
  else if endsWithC filename ".jsx" then String.mk (cs.take (cs.length - 4)) ++ ".sandbox.ts"
  else if endsWithC filename ".ts" then String.mk (cs.take (cs.length - 3)) ++ ".sandbox.ts"
  else if endsWithC filename ".js" then String.mk (cs.take (cs.length - 3)) ++ ".sandbox.ts"
  else filename

/-- Embeds `TransformResult` (transformer.ts 38–43). -/
structure TransformResult where
  code : String
  hasSandboxFunctions : Bool
  sandboxFilePath : Option String
  sandboxFileContent : Option String
deriving DecidableEq

/-- A source file as the transformer receives it: its text, and its SWC parse
(the external parser is modelled by pairing the two; parse failure is
propagated by the loader, below). -/
structure SourceFile where
  text : String
  ast : List ModuleItem

/-- Embeds `transform` (transformer.ts 921–991): return the source unchanged
unless its text contains `"use sandbox"`; walk the module with the normalised
filename; return the source unchanged when nothing was collected; otherwise
generate the sandbox module content, mutate the AST, unshift the runtime's
injected import and print. -/
def transform (digest : String → String) (src : SourceFile) (filename : String) :
    TransformResult :=
  if !(strIncludes src.text "use sandbox") then
    ⟨src.text, false, none, none⟩
  else
    let normalizedFilename := normalizeFilename filename
    let fns := walkModule digest normalizedFilename src.ast
    if fns.isEmpty then
      ⟨src.text, false, none, none⟩
    else
      let sandboxContent := generateSandboxFile fns filename src.ast
      let mutated := applyAstMutations src.ast fns
      let code := printOutModule (.orig runtimeImportItem :: mutated)
      ⟨code, true, some (sandboxFilePathOf filename), some sandboxContent⟩

/-- Embeds `sandboxLoader` (loader.ts 75–116): already-transformed sources
(detected by the `__sandbox_runSandboxFn` binding), sources without the
directive text, and generated `.sandbox.` files are returned unchanged;
otherwise the transformed code is returned (bundle registration is a side
effect that does not alter the returned string). -/
def sandboxLoader (digest : String → String) (src : SourceFile)
    (resourcePath : String) : String :=
  if strIncludes src.text "__sandbox_runSandboxFn" then src.text
  else if !(strIncludes src.text "use sandbox") then src.text
  else if strIncludes resourcePath ".sandbox." then src.text
  else (transform digest src resourcePath).code

/-! ## Deep directive scan

Specification-side definition for stating "the source contains no
`use sandbox` directive": some function anywhere in the module (at any
nesting depth) has the directive as the first statement of its body.
-/

mutual
/-- True when some function inside the statement is annotated. -/
def stmtHasDirective : Stmt → Bool
  | .exprStmt e => exprHasDirective e
  | .varDecl ds => declsHaveDirective ds
  | .fnDecl _ _ b _ => fnBodyHasDirective b
  | .block ss => stmtsHaveDirective ss
  | .ifStmt t c a =>
    exprHasDirective t || stmtHasDirective c ||
      (match a with | some s => stmtHasDirective s | none => false)
  | .forStmt fi t u b =>
    (match fi with
      | some (.varInit ds) => declsHaveDirective ds
      | some (.exprInit e) => exprHasDirective e
      | none => false) ||
    (match t with | some e => exprHasDirective e | none => false) ||
    (match u with | some e => exprHasDirective e | none => false) ||
    stmtHasDirective b
  | .whileStmt t b => exprHasDirective t || stmtHasDirective b
  | .returnStmt a => (match a with | some e => exprHasDirective e | none => false)
  | .tryStmt b h f =>
    stmtsHaveDirective b ||
      (match h with | some (_, ss) => stmtsHaveDirective ss | none => false) ||
      (match f with | some ss => stmtsHaveDirective ss | none => false)
  | .otherStmt => false

/-- True when some function inside the statement list is annotated. -/
def stmtsHaveDirective : List Stmt → Bool
  | [] => false
  | s :: ss => stmtHasDirective s || stmtsHaveDirective ss

/-- True when a function body (directive at its head, or deeper) is annotated. -/
def fnBodyHasDirective : Option (List Stmt) → Bool
  | none => false
  | some ss => hasSandboxDirective ss || stmtsHaveDirective ss

/-- True when some function inside the declarator list is annotated. -/
def declsHaveDirective : List VarDeclarator → Bool
  | [] => false
  | .mk _ init :: ds =>
    (match init with | some e => exprHasDirective e | none => false) ||
      declsHaveDirective ds

/-- True when some function inside the expression is annotated. -/
def exprHasDirective : Expr → Bool
  | .ident _ => false
  | .strLit _ => false
  | .numLit _ => false
  | .fnExpr _ _ b _ => fnBodyHasDirective b
  | .arrowBlock _ ss _ => hasSandboxDirective ss || stmtsHaveDirective ss
  | .arrowExprBody _ e _ => exprHasDirective e
  | .call c args => exprHasDirective c || exprsHaveDirective args
  | .superCallee => false
  | .importCallee => false
  | .member o p => exprHasDirective o || exprHasDirective p
  | .objectLit props => objPropsHaveDirective props
  | .arrayLit elems => optExprsHaveDirective elems
  | .cond t c a => exprHasDirective t || exprHasDirective c || exprHasDirective a
  | .binary l r => exprHasDirective l || exprHasDirective r
  | .unary a => exprHasDirective a
  | .awaitExpr a => exprHasDirective a
  | .assign l r => exprHasDirective l || exprHasDirective r
  | .templateLit es => exprsHaveDirective es
  | .otherExpr => false

/-- True when some function inside the expression list is annotated. -/
def exprsHaveDirective : List Expr → Bool
  | [] => false
  | e :: es => exprHasDirective e || exprsHaveDirective es

/-- True when some function inside the optional elements is annotated. -/
def optExprsHaveDirective : List (Option Expr) → Bool
  | [] => false
  | none :: es => optExprsHaveDirective es
  | some e :: es => exprHasDirective e || optExprsHaveDirective es

/-- True when some function inside the object properties is annotated. -/
def objPropsHaveDirective : List ObjProp → Bool
  | [] => false
  | .keyValueProp k v :: ps =>
    exprHasDirective k || exprHasDirective v || objPropsHaveDirective ps
  | .shorthand _ :: ps => objPropsHaveDirective ps
  | .otherProp :: ps => objPropsHaveDirective ps
end

/-- True when some function in the module item is annotated. -/
def moduleItemHasDirective : ModuleItem → Bool
  | .fnDeclItem _ _ b _ => fnBodyHasDirective b
  | .exportFnDecl _ _ b _ => fnBodyHasDirective b
  | .exportVarDecl ds => declsHaveDirective ds
  | .exportOtherDecl => false
  | .exportDefaultFnExpr _ _ b _ => fnBodyHasDirective b
  | .exportDefaultOther => false
  | .varDeclItem ds => declsHaveDirective ds
  | .importDecl _ _ _ => false
  | .stmtItem s => stmtHasDirective s
  | .otherItem => false

/-- True when some function in the module is annotated. -/
def moduleHasDirective (m : List ModuleItem) : Bool :=
  m.any moduleItemHasDirective

/-! ## Bundler (`transformer.ts` second part / `bundler.ts`, `generateBundleSync`)

The current bundler (lines 1325–1467 of the packed transformer.ts, identical
in bundler.ts) writes this process's registered sandbox files into
`.next/.sandbox-temp`, scans that directory for all `*.sandbox.ts` files not
starting with `_`, sorts them, hashes the concatenated contents (sha256, first
16 hex — the external digest is the `digest16` parameter), skips when the hash
equals the in-process `lastBundleHash` (set when the manifest was last
written), and otherwise writes the entry file, the esbuild output
`bundle-<hash>.js` (the external esbuild is the `esbuild` parameter) and
`manifest.json`. Directories are modelled as a name list plus a content map.
-/

/-- A directory: file names in creation order, and their contents. -/
structure Dir where
  names : List String
  content : String → Option String

/-- Model of `writeFileSync` into a directory. -/
def dirWrite (d : Dir) (name contents : String) : Dir :=
  { names := if d.names.contains name then d.names else d.names ++ [name],
    content := fun p => if p = name then some contents else d.content p }

/-- Embeds the safe temp name (`filePath.replace(projectRoot, "")
.replace(/[/\\]/g, "__").replace(/^__/, "")`, transformer.ts 1341–1344). -/
def safeTempName (projectRoot filePath : String) : String :=
  let stripped := match findMarkerIdx projectRoot.toList filePath.toList with
    | some i => filePath.toList.take i ++ filePath.toList.drop (i + projectRoot.toList.length)
    | none => filePath.toList
  let doubled := stripped.flatMap (fun c => if c = '/' || c = '\\' then ['_', '_'] else [c])
  if isPrefixOfC ['_', '_'] doubled then String.mk (doubled.drop 2) else String.mk doubled

/-- The loop writing this process's registered files to the temp directory
(transformer.ts 1339–1347). -/
def writeAllTemp (root : String) (m : List (String × String)) (d : Dir) : Dir :=
  m.foldl (fun dd kv => dirWrite dd (safeTempName root kv.1) kv.2) d

/-- The scan filter (`f.endsWith(".sandbox.ts") && !f.startsWith("_")`,
transformer.ts 1350–1352). -/
def isBundledName (f : String) : Bool :=
  endsWithC f ".sandbox.ts" && !(isPrefixOfC ['_'] f.toList)

/-- The sorted list of sandbox files found in the temp directory. -/
def bundlerFilesOf (d : Dir) : List String :=
  sortStrings (d.names.filter isBundledName)

/-- The contents of the sorted files, concatenated as the bundler hashes them
(`allContent.join("\n---\n")`, transformer.ts 1372). -/
def bundlerCombinedOf (d : Dir) : String :=
  String.intercalate "\n---\n" ((bundlerFilesOf d).map (fun f => (d.content f).getD ""))

/-- Bundler state: temp directory, output directory, this process's
registered file map, and the in-process `lastBundleHash`. -/
structure BundlerState where
  tempDir : Dir
  outputDir : Dir
  sandboxFilesMap : List (String × String)
  lastBundleHash : Option String

/-- The temp directory after this process's registrations are written. -/
def bundlerTempAfter (root : String) (st : BundlerState) : Dir :=
  writeAllTemp root st.sandboxFilesMap st.tempDir

/-- The digest the bundler computes for a state: a pure function of the
file contents concatenated in sorted name order. -/
def bundlerHashOf (digest16 : String → String) (root : String)
    (st : BundlerState) : String :=
  digest16 (bundlerCombinedOf (bundlerTempAfter root st))

/-- Embeds `BundleResult` (transformer.ts 1238–1242); `bundlePath` keeps the
file name (the output directory prefix is the `Dir`). -/
structure BundleResultM where
  bundlePath : String
  bundleHash : String
  sandboxFiles : List String
deriving DecidableEq

/-- The manifest JSON written beside the bundle (transformer.ts 1448–1456). -/
def manifestJson (bundleHash bundleFilename now : String)
    (files : List String) : Json :=
  .obj [("hash", .str bundleHash), ("bundleFile", .str bundleFilename),
    ("generatedAt", .str now), ("sandboxFiles", .arr (files.map .str))]

/-- Embeds `generateBundleSync` (transformer.ts 1325–1467): write registered
files to temp, scan and sort, return `null` when nothing to bundle, hash the
concatenated contents, skip when the hash equals `lastBundleHash`, otherwise
write the entry file, the bundle and the manifest and record the hash. -/
def generateBundleSync (digest16 : String → String) (esbuild : String → String)
    (now root : String) (st : BundlerState) : Option BundleResultM × BundlerState :=
  let temp1 := writeAllTemp root st.sandboxFilesMap st.tempDir
  let files := bundlerFilesOf temp1
  if files.isEmpty then (none, { st with tempDir := temp1 })
  else
    let combinedContent := bundlerCombinedOf temp1
    let bundleHash := digest16 combinedContent
    if st.lastBundleHash == some bundleHash then (none, { st with tempDir := temp1 })
    else
      let entryContent := String.intercalate "\n"
        (files.map (fun f => "export * from \"./" ++ basenameStr f ++ "\";"))
      let temp2 := dirWrite temp1 "_sandbox_entry.ts" entryContent
      let bundleFilename := "bundle-" ++ bundleHash ++ ".js"
      let out1 := dirWrite st.outputDir bundleFilename (esbuild combinedContent)
      let out2 := dirWrite out1 "manifest.json"
        (manifestJson bundleHash bundleFilename now files).render
      (some ⟨bundleFilename, bundleHash, files⟩,
        { tempDir := temp2, outputDir := out2,
          sandboxFilesMap := st.sandboxFilesMap, lastBundleHash := some bundleHash })

/-- The value the last matching write left for a name, if any. -/
def lastWriteVal (root : String) (m : List (String × String)) (x : String) :
    Option String :=
  ((m.reverse).find? (fun kv => safeTempName root kv.1 == x)).map (·.2)

/-! ## Specification-side closure variables (for the refinement comparison)

Modelled from the spec: §4.2 defines `closureVars` from "every identifier
reference" in the body, and the claim derived from it states that a
member-access property name is never captured. The collector below follows
those words: a member access contributes the references of its object only
(as the transformer's own scope walker does at lines 474–476), object keys
and binding positions (declarator ids, parameters, catch parameters) are not
references, and local declarations are the parameters plus all names bound by
`var`/`let`/`const` declarations recursively within the body. It exists only
to be compared with the source-derived `detectClosureVars`.
-/

mutual
/-- Spec-side references of a statement. -/
def srStmt : Stmt → List String
  | .exprStmt e => srExpr e
  | .varDecl ds => srDecls ds
  | .fnDecl _ _ b _ => srOptStmts b
  | .block ss => srStmts ss
  | .ifStmt t c a => srExpr t ++ srStmt c ++ srOptStmt a
  | .forStmt fi t u b =>
    (match fi with
      | some (.varInit ds) => srDecls ds
      | some (.exprInit e) => srExpr e
      | none => []) ++ srOptExpr t ++ srOptExpr u ++ srStmt b
  | .whileStmt t b => srExpr t ++ srStmt b
  | .returnStmt a => srOptExpr a
  | .tryStmt b h f =>
    srStmts b ++ (match h with | some (_, ss) => srStmts ss | none => []) ++ srOptStmts f
  | .otherStmt => []

/-- Spec-side references of a statement list. -/
def srStmts : List Stmt → List String
  | [] => []
  | s :: ss => srStmt s ++ srStmts ss

/-- Spec-side references of an optional statement. -/
def srOptStmt : Option Stmt → List String
  | none => []
  | some s => srStmt s

/-- Spec-side references of an optional block. -/
def srOptStmts : Option (List Stmt) → List String
  | none => []
  | some ss => srStmts ss

/-- Spec-side references of declarators: ids are binders, initialisers are read. -/
def srDecls : List VarDeclarator → List String
  | [] => []
  | .mk _ init :: ds => srOptExpr init ++ srDecls ds

/-- Spec-side references of an expression. -/
def srExpr : Expr → List String
  | .ident v => [v]
  | .strLit _ => []
  | .numLit _ => []
  | .fnExpr _ _ b _ => srOptStmts b
  | .arrowBlock _ ss _ => srStmts ss
  | .arrowExprBody _ e _ => srExpr e
  | .call c args => srExpr c ++ srExprs args
  | .superCallee => []
  | .importCallee => []
  | .member o p => srExpr o ++ (match p with | .ident _ => [] | pe => srExpr pe)
  | .objectLit props => srObjProps props
  | .arrayLit elems => srOptExprs elems
  | .cond t c a => srExpr t ++ srExpr c ++ srExpr a
  | .binary l r => srExpr l ++ srExpr r
  | .unary a => srExpr a
  | .awaitExpr a => srExpr a
  | .assign l r => srExpr l ++ srExpr r
  | .templateLit es => srExprs es
  | .otherExpr => []

/-- Spec-side references of an expression list. -/
def srExprs : List Expr → List String
  | [] => []
  | e :: es => srExpr e ++ srExprs es

/-- Spec-side references of an optional expression. -/
def srOptExpr : Option Expr → List String
  | none => []
  | some e => srExpr e

/-- Spec-side references of optional array elements. -/
def srOptExprs : List (Option Expr) → List String
  | [] => []
  | none :: es => srOptExprs es
  | some e :: es => srExpr e ++ srOptExprs es

/-- Spec-side references of object properties: identifier keys are not
references, shorthand properties are. -/
def srObjProps : List ObjProp → List String
  | [] => []
  | .keyValueProp k v :: ps =>
    (match k with | .ident _ => [] | ke => srExpr ke) ++ srExpr v ++ srObjProps ps
  | .shorthand v :: ps => v :: srObjProps ps
  | .otherProp :: ps => srObjProps ps
end

mutual
/-- Spec-side local bindings of a statement (`var`/`let`/`const` names,
recursively, including destructured ones). -/
def slStmt : Stmt → List String
  | .exprStmt _ => []
  | .varDecl ds => slDecls ds
  | .fnDecl _ _ _ _ => []
  | .block ss => slStmts ss
  | .ifStmt _ c a => slStmt c ++ (match a with | some s => slStmt s | none => [])
  | .forStmt fi _ _ b =>
    (match fi with | some (.varInit ds) => slDecls ds | _ => []) ++ slStmt b
  | .whileStmt _ b => slStmt b
  | .returnStmt _ => []
  | .tryStmt b h f =>
    slStmts b ++ (match h with | some (_, ss) => slStmts ss | none => []) ++
      (match f with | some ss => slStmts ss | none => [])
  | .otherStmt => []

/-- Spec-side local bindings of a statement list. -/
def slStmts : List Stmt → List String
  | [] => []
  | s :: ss => slStmt s ++ slStmts ss

/-- Spec-side local bindings of declarators: all names the pattern binds. -/
def slDecls : List VarDeclarator → List String
  | [] => []
  | .mk pid _ :: ds => fromPattern pid ++ slDecls ds
end

/-- Modelled from the spec (§4.2 and testable property 3): the closure
variables of a nested annotated function, for comparison with
`detectClosureVars`. -/
def specClosureVars (body : List Stmt) (params : List String)
    (parentScope : List (List String)) : List String :=
  let referenced := (srStmts (body.drop 1)).dedup
  let locallyDeclared := params ++ slStmts (body.drop 1)
  sortStrings (referenced.filter (fun n =>
    !(locallyDeclared.contains n) && !(isBuiltIn n) && isDeclaredInScope n parentScope))

/-! ## Example values used by claim counterexamples and witnesses -/

/-- A digest stand-in for examples. -/
def exDigest : String → String := fun _ => "8f3a19c2"

/-- The body of a nested annotated function that uses the name `prefix` only
as a member-access property (`return obj.prefix;` after the directive). -/
def exPropBody : List Stmt :=
  [.exprStmt (.strLit "use sandbox"),
   .returnStmt (some (.member (.ident "obj") (.ident "prefix")))]

/-- A module whose only annotated function is nested:
`async function outer(p) \x7b async function inner(x) \x7b "use sandbox";
return p + x; \x7d return inner("y"); \x7d`. -/
def exNestedModule : List ModuleItem :=
  [.fnDeclItem "outer" [.ident "p"] (some [
    .fnDecl "inner" [.ident "x"] (some [
      .exprStmt (.strLit "use sandbox"),
      .returnStmt (some (.binary (.ident "p") (.ident "x")))]) true,
    .returnStmt (some (.call (.ident "inner") [.strLit "y"]))]) true]

/-- The nested module paired with its source text. -/
def exNestedSource : SourceFile :=
  ⟨"async function outer(p) \x7b async function inner(x) \x7b \"use sandbox\"; return p + x; \x7d return inner(\"y\"); \x7d",
    exNestedModule⟩

/-- A record as the collector would produce for the nested `inner` (scope path
length 2), used to evaluate the mutation loop's skip. -/
def exNestedRecord : SandboxFunction :=
  collectSandboxFunction exDigest "app/x.ts" ["outer"] [["x"], ["outer", "p"]]
    [.ident "x"]
    [.exprStmt (.strLit "use sandbox"),
     .returnStmt (some (.binary (.ident "p") (.ident "x")))]
    "inner" true (.moduleItemLoc 0)

/-- A module with one top-level annotated export:
`export async function readFile(path) \x7b "use sandbox"; return path.length; \x7d`. -/
def exTopModule : List ModuleItem :=
  [.exportFnDecl "readFile" [.ident "path"] (some [
    .exprStmt (.strLit "use sandbox"),
    .returnStmt (some (.member (.ident "path") (.ident "length")))]) true]

/-- The record `walkModule` collects from `exTopModule`. -/
def exTopRecord : SandboxFunction :=
  collectSandboxFunction exDigest "app/api/x.ts" [] [["readFile"]]
    [.ident "path"]
    [.exprStmt (.strLit "use sandbox"),
     .returnStmt (some (.member (.ident "path") (.ident "length")))]
    "readFile" true (.exportDeclLoc 0)

/-- A module with one top-level annotated export taking a destructured
parameter: `export async function f(\x7b a, b \x7d) \x7b "use sandbox";
return a; \x7d`. -/
def exDestrParams : List Pat :=
  [.objectPat [.assignProp "a" none, .assignProp "b" none]]

/-- See `exDestrParams`. -/
def exDestrModule : List ModuleItem :=
  [.exportFnDecl "f" exDestrParams (some [
    .exprStmt (.strLit "use sandbox"),
    .returnStmt (some (.ident "a"))]) true]

/-- The record `walkModule` collects from `exDestrModule`. -/
def exDestrRecord : SandboxFunction :=
  collectSandboxFunction exDigest "app/x.ts" [] [["f"]] exDestrParams
    [.exprStmt (.strLit "use sandbox"),
     .returnStmt (some (.ident "a"))]
    "f" true (.exportDeclLoc 0)

/-- A source with no directive anywhere. -/
def exPlainSource : SourceFile :=
  ⟨"export function add(a, b) \x7b return a + b; \x7d",
    [.exportFnDecl "add" [.ident "a", .ident "b"]
      (some [.returnStmt (some (.binary (.ident "a") (.ident "b")))]) false]⟩

/-- A source that is already transformed (it binds `__sandbox_runSandboxFn`). -/
def exTransformedSource : SourceFile :=
  ⟨"import \x7b __runSandboxFn as __sandbox_runSandboxFn \x7d from \"@use-sandbox/core/runtime\";\nasync function g() \x7b \"use sandbox\"; \x7d",
    [runtimeImportItem]⟩

/-! ## Example values used by witness theorems -/

/-- A stack text as the runner would send it. -/
def sampleStack : String := "Error: nope\n    at run (/tmp/sandbox-runner.mjs:9:11)"

/-- A bundled function that throws `new Error("nope")`. -/
def sampleThrowFn : List Json → VMCallResult := fun _ => ⟨[], .error ("nope", sampleStack)⟩

/-- A bundle exporting only `readFile`. -/
def sampleBundle : VMBundle := fun fid => if fid == "readFile" then some sampleThrowFn else none

/-- A bundled function returning its call arguments. -/
def sampleEchoFn : List Json → VMCallResult := fun callArgs => ⟨[], .ok (.arr callArgs)⟩

/-- A bundle exporting only `inner`. -/
def sampleBundle2 : VMBundle := fun fid => if fid == "inner" then some sampleEchoFn else none

/-- A pool state holding one session. -/
def samplePool : PoolState := ⟨[("s1", 7)], 8, 1⟩

/-! ## Theorems -/

theorem mem_sortStrings {x : String} {l : List String} :
    x ∈ sortStrings l ↔ x ∈ l := List.mem_insertionSort strLeR

theorem sorted_sortStrings (l : List String) :
    List.Sorted strLeR (sortStrings l) := List.sorted_insertionSort strLeR l

theorem nodup_sortStrings {l : List String} (h : l.Nodup) :
    (sortStrings l).Nodup := ((List.perm_insertionSort strLeR l).symm).nodup h


/-- C1: for a call of an annotated function that throws inside the VM, the
host-side call rejects with an error whose message equals the thrown message
and whose stack is the runner's stack text (the orchestrator splits the VM's
stdout into lines, parses the final line as JSON and rethrows from the
`__error` and `__stack` fields); any JSON parse failure of that final line
surfaces as a single wrapped error containing both stdout and stderr verbatim. -/
theorem C1_error_passthrough :
    (∀ (bundle : VMBundle) (fnId : String) (fn : List Json → VMCallResult)
        (args : List Json) (cv : Option (List (String × Json))) (stderr : String)
        (logs : List Line) (m s : String),
      bundle fnId = some fn →
      fn (runnerCallArgs (buildPayload args cv)) = ⟨logs, .error (m, s)⟩ →
      m ≠ "" → s ≠ "" →
      executeInSandboxModel bundle fnId args cv stderr = .error ⟨m, some s⟩) ∧
    (∀ (stdout : List Line) (stderr : String),
      stdout.getLast?.bind Line.parse = none →
      parseSandboxOutput stdout stderr =
        .error ⟨sandboxFailedMsg (renderStdout stdout) stderr, none⟩) := by
  constructor
  · intro bundle fnId fn args cv stderr logs m s hb hf hm hs
    have hm' : (m == "") = false := beq_eq_false_iff_ne.mpr hm
    have hs' : (s == "") = false := beq_eq_false_iff_ne.mpr hs
    unfold executeInSandboxModel runnerStdout
    rw [hb]
    simp only [hf]
    unfold parseSandboxOutput
    rw [List.getLast?_concat]
    simp [runnerReplyLine, Line.parse, jsonLookup, List.find?, Json.truthy,
      Json.coerceString, hm', hs']
  · intro stdout stderr h
    unfold parseSandboxOutput
    cases hl : stdout.getLast? with
    | none => rfl
    | some l =>
      rw [hl] at h
      cases hp : l.parse with
      | none => simp [hp]
      | some j => simp [hp] at h

/-- Witness for C1 at a concrete bundle: the function `readFile` throws
`new Error("nope")` and the host sees message `"nope"` with the runner's
stack; a non-JSON final stdout line yields the wrapped diagnostic. -/
theorem C1_error_passthrough_witness :
    executeInSandboxModel sampleBundle "readFile" [] none "" =
      .error ⟨"nope", some sampleStack⟩ ∧
    parseSandboxOutput [Line.raw "not json"] "boom" =
      .error ⟨sandboxFailedMsg (renderStdout [Line.raw "not json"]) "boom", none⟩ :=
  ⟨C1_error_passthrough.1 sampleBundle "readFile" sampleThrowFn [] none "" []
      "nope" sampleStack rfl rfl (by decide) (by decide),
    C1_error_passthrough.2 [Line.raw "not json"] "boom" rfl⟩

/-- C2: the orchestrator invokes the runner with exactly two positional
arguments after the script path — the function identifier and the JSON-encoded
payload; the runner looks up the bundle export named by that identifier and
calls it with `closureVars` prepended to the `args` array when present, and
with the `args` array spread directly otherwise. -/
theorem C2_runner_call_convention :
    ∀ (fnId : String) (args : List Json) (cv : Option (List (String × Json))),
      runnerCommandArgs fnId (buildPayload args cv) =
        [RUNNER_SCRIPT_PATH, fnId, (buildPayload args cv).render] ∧
      runnerCallArgs (buildPayload args cv) =
        (match cv with | some c => Json.obj c :: args | none => args) ∧
      (∀ (bundle : VMBundle) (fn : List Json → VMCallResult),
        bundle fnId = some fn →
        runnerStdout bundle fnId (buildPayload args cv) =
          (fn (match cv with | some c => Json.obj c :: args | none => args)).logs ++
            [runnerReplyLine
              (fn (match cv with | some c => Json.obj c :: args | none => args)).outcome]) := by
  intro fnId args cv
  have hargs : runnerCallArgs (buildPayload args cv) =
      (match cv with | some c => Json.obj c :: args | none => args) := by
    cases cv with
    | none => simp [runnerCallArgs, buildPayload, jsonLookup, List.find?]
    | some c => simp [runnerCallArgs, buildPayload, jsonLookup, List.find?]
  refine ⟨rfl, hargs, ?_⟩
  intro bundle fn hb
  unfold runnerStdout
  rw [hb, hargs]

/-- Witness for C2: with `args = ["y"]` and closure `\x7b p: "pv" \x7d` the
function is called with the closure object prepended; the reply line carries
the result. -/
theorem C2_runner_call_convention_witness :
    runnerCallArgs (buildPayload [Json.str "y"] (some [("p", Json.str "pv")])) =
      [Json.obj [("p", Json.str "pv")], Json.str "y"] ∧
    runnerStdout sampleBundle2 "inner"
        (buildPayload [Json.str "y"] (some [("p", Json.str "pv")])) =
      [Line.json (Json.obj [("__result",
        Json.arr [Json.obj [("p", Json.str "pv")], Json.str "y"])])] := by
  have h := C2_runner_call_convention "inner" [Json.str "y"] (some [("p", Json.str "pv")])
  refine ⟨h.2.1, ?_⟩
  rw [h.2.2 sampleBundle2 sampleEchoFn rfl]
  rfl

/-- C7: when an annotated (stubbed) function fires inside an active `run`,
`__runSandboxFn` observes the call context and dispatches directly to the
context's VM with its sudo flag, leaving pool, provision count and
`sandbox.size` unchanged; and a nested `run` with a key already in the pool
reuses the pooled VM without provisioning. -/
theorem C7_context_reuse :
    (∀ (c : SandboxCtxValue) (st : PoolState),
      runSandboxFnStep (some c) st = ((c.sandbox, c.sudoFlag), st)) ∧
    (∀ (c : SandboxCtxValue) (st : PoolState),
      poolSize (runSandboxFnStep (some c) st).2 = poolSize st ∧
      (runSandboxFnStep (some c) st).2.createdCount = st.createdCount) ∧
    (∀ (st : PoolState) (key : String) (sd : Bool) (vm : Nat),
      poolLookup st key = some vm →
      runStep st key sd = (⟨vm, sd⟩, st)) := by
  refine ⟨fun c st => rfl, fun c st => ⟨rfl, rfl⟩, ?_⟩
  intro st key sd vm h
  unfold runStep
  rw [h]

/-- Witness for C7: inside a context for VM 7 the inner call dispatches to
VM 7 and leaves the one-entry pool untouched; a `run` on the pooled key `s1`
reuses VM 7. -/
theorem C7_context_reuse_witness :
    runSandboxFnStep (some ⟨7, true⟩) samplePool = ((7, true), samplePool) ∧
    poolSize (runSandboxFnStep (some ⟨7, true⟩) samplePool).2 = poolSize samplePool ∧
    runStep samplePool "s1" true = (⟨7, true⟩, samplePool) :=
  ⟨C7_context_reuse.1 ⟨7, true⟩ samplePool,
    (C7_context_reuse.2.1 ⟨7, true⟩ samplePool).1,
    C7_context_reuse.2.2 samplePool "s1" true 7 rfl⟩

/-- C10: the default filesystem install-state store identifies two session
keys whose sanitised forms coincide: after `setInstalledHash(k1, h)`,
`getInstalledHash(k2)` returns `h` for any distinct `k2` with the same
sanitised form, so a write for one key changes the stored state visible to
another key. -/
theorem C10_storage_key_collision :
    ∀ (d : StorageDir) (k1 k2 h now : String),
      k1 ≠ k2 → sanitizeKey k1 = sanitizeKey k2 →
      getInstalledHash (setInstalledHash d k1 h now) k2 = some (.str h) := by
  intro d k1 k2 h now hne hsan
  have hp : stateFilePath k2 = stateFilePath k1 := by
    unfold stateFilePath; rw [hsan]
  unfold getInstalledHash setInstalledHash
  rw [hp]
  simp [jsonLookup, List.find?]

/-- Witness for C10: the distinct keys `"a b"` and `"a?b"` share the sanitised
form `"a_b"`; writing hash `"deadbeef"` for the first makes the second read it. -/
theorem C10_storage_key_collision_witness :
    "a b" ≠ "a?b" ∧ sanitizeKey "a b" = sanitizeKey "a?b" ∧
    getInstalledHash (setInstalledHash (fun _ => none) "a b" "deadbeef" "t0") "a?b" =
      some (.str "deadbeef") :=
  ⟨by decide, by decide,
    C10_storage_key_collision (fun _ => none) "a b" "a?b" "deadbeef" "t0"
      (by decide) (by decide)⟩


/-- Every collected record's `fnId` is `generateFnId` of the walk's filename at
the record's own scope path (helper for C4). -/
theorem fnId_of_collect (digest : String → String) (f : String)
    (sp : List String) (chain : List (List String)) (ps : List Pat)
    (body : List Stmt) (name : String) (a : Bool) (loc : AstLocation) :
    (collectSandboxFunction digest f sp chain ps body name a loc).fnId =
      generateFnId digest f
        ((collectSandboxFunction digest f sp chain ps body name a loc).scopePath) := rfl

/-- Records collected from a function expression carry the characterised
`fnId` (helper for C4). -/
theorem fnId_of_mem_fnExprCollect {digest : String → String} {f : String}
    {sp : List String} {chain : List (List String)} {name : String}
    {ps : List Pat} {bb : Option (List Stmt)} {a : Bool} {loc : AstLocation}
    {r : SandboxFunction}
    (h : r ∈ walkFunctionExprCollect digest f sp chain name ps bb a loc) :
    r.fnId = generateFnId digest f r.scopePath := by
  unfold walkFunctionExprCollect at h
  cases bb with
  | none => simp at h
  | some stmts =>
    cases hd : hasSandboxDirective stmts with
    | false => simp [hd] at h
    | true =>
      simp only [hd, if_true, List.mem_singleton] at h
      subst h
      rfl

/-- Records collected from a function declaration carry the characterised
`fnId` (helper for C4). -/
theorem fnId_of_mem_fnDeclCollect {digest : String → String} {f : String}
    {sp : List String} {chain : List (List String)} {name : String}
    {ps : List Pat} {bb : Option (List Stmt)} {a : Bool} {loc : AstLocation}
    {r : SandboxFunction}
    (h : r ∈ walkFunctionDeclCollect digest f sp chain name ps bb a loc) :
    r.fnId = generateFnId digest f r.scopePath := by
  unfold walkFunctionDeclCollect at h
  cases bb with
  | none => simp at h
  | some stmts =>
    cases hd : hasSandboxDirective stmts with
    | false => simp [hd] at h
    | true =>
      simp only [hd, if_true, List.mem_singleton] at h
      subst h
      rfl

/-- Records collected from a declarator list carry the characterised `fnId`
(helper for C4). -/
theorem fnId_of_mem_varDeclCollect {digest : String → String} {f : String}
    {mi : Nat} {ex : Bool} {r : SandboxFunction} :
    ∀ (ds : List VarDeclarator) (di : Nat) (cur : List String),
      r ∈ (walkVarDeclCollect digest f cur mi ex ds di).2 →
      r.fnId = generateFnId digest f r.scopePath := by
  intro ds
  induction ds with
  | nil => intro di cur h; simp [walkVarDeclCollect] at h
  | cons d rest ih =>
    intro di cur h
    obtain ⟨pid, init⟩ := d
    simp only [walkVarDeclCollect, List.mem_append] at h
    rcases h with h | h
    · cases hv : fnInitView init with
      | none => rw [hv] at h; simp at h
      | some v =>
        rw [hv] at h
        obtain ⟨vps, vbb, va⟩ := v
        exact fnId_of_mem_fnExprCollect h
    · exact ih _ _ h

/-- Records collected from one module item carry the characterised `fnId`
(helper for C4). -/
theorem fnId_of_mem_itemCollect {digest : String → String} {f : String}
    {cur : List String} {item : ModuleItem} {i : Nat} {r : SandboxFunction}
    (h : r ∈ (walkModuleItemCollect digest f cur item i).2) :
    r.fnId = generateFnId digest f r.scopePath := by
  cases item with
  | fnDeclItem name ps b isAsync => exact fnId_of_mem_fnDeclCollect h
  | exportFnDecl name ps b isAsync => exact fnId_of_mem_fnDeclCollect h
  | exportVarDecl ds => exact fnId_of_mem_varDeclCollect ds 0 cur h
  | varDeclItem ds => exact fnId_of_mem_varDeclCollect ds 0 cur h
  | exportDefaultFnExpr ident ps b isAsync => exact fnId_of_mem_fnExprCollect h
  | exportOtherDecl => simp [walkModuleItemCollect] at h
  | exportDefaultOther => simp [walkModuleItemCollect] at h
  | importDecl t sp src => simp [walkModuleItemCollect] at h
  | stmtItem s => simp [walkModuleItemCollect] at h
  | otherItem => simp [walkModuleItemCollect] at h

/-- Records collected from the module walk carry the characterised `fnId`
(helper for C4). -/
theorem fnId_of_mem_itemsCollect {digest : String → String} {f : String}
    {r : SandboxFunction} :
    ∀ (items : List ModuleItem) (idx : Nat) (cur : List String),
      r ∈ walkModuleItemsCollect digest f items idx cur →
      r.fnId = generateFnId digest f r.scopePath := by
  intro items
  induction items with
  | nil => intro idx cur h; simp [walkModuleItemsCollect] at h
  | cons item rest ih =>
    intro idx cur h
    rw [walkModuleItemsCollect] at h
    simp only [List.mem_append] at h
    rcases h with h | h
    · exact fnId_of_mem_itemCollect h
    · exact ih _ _ h

/-- C4: the generated `fnId` is a pure function of the source path and the
scope path only — it equals `scopePath.join("$") ++ "_" ++ digest(path-and-
scope key)`, every record the walk collects satisfies that equation at its
own scope path, and two collections of a function that differ only in the
body statements after the directive (or in parameters, async-ness or AST
location) produce the same `fnId`. -/
theorem C4_fnid_pure_function :
    (∀ (digest : String → String) (filename : String) (scopePath : List String),
      generateFnId digest filename scopePath =
        String.intercalate "$" scopePath ++ "_" ++
          digest (filename ++ "/" ++ String.intercalate "$" scopePath)) ∧
    (∀ (digest : String → String) (filename : String) (m : List ModuleItem)
        (r : SandboxFunction), r ∈ walkModule digest filename m →
      r.fnId = generateFnId digest filename r.scopePath) ∧
    (∀ (digest : String → String) (filename : String) (sp : List String)
        (chain₁ chain₂ : List (List String)) (ps₁ ps₂ : List Pat)
        (body₁ body₂ : List Stmt) (name : String) (a₁ a₂ : Bool)
        (loc₁ loc₂ : AstLocation),
      (collectSandboxFunction digest filename sp chain₁ ps₁ body₁ name a₁ loc₁).fnId =
        (collectSandboxFunction digest filename sp chain₂ ps₂ body₂ name a₂ loc₂).fnId) := by
  refine ⟨fun digest filename scopePath => rfl, ?_, fun _ _ _ _ _ _ _ _ _ _ _ _ _ _ => rfl⟩
  intro digest filename m r h
  exact fnId_of_mem_itemsCollect m 0 [] h

/-- Witness for C4: the module `export async function readFile(path)
\x7b "use sandbox"; ... \x7d` at path `app/api/x.ts` collects one record whose
id is `readFile_<digest>`; a Windows-style absolute path normalises to the
project-relative one. -/
theorem C4_fnid_pure_function_witness :
    walkModule exDigest "app/api/x.ts" exTopModule = [exTopRecord] ∧
    exTopRecord.fnId = generateFnId exDigest "app/api/x.ts" exTopRecord.scopePath ∧
    exTopRecord.fnId = "readFile_8f3a19c2" ∧
    normalizeFilename "C:\\proj\\app\\api\\x.ts" = "app/api/x.ts" :=
  ⟨rfl,
    C4_fnid_pure_function.2.1 exDigest "app/api/x.ts" exTopModule exTopRecord
      (by rw [(rfl : walkModule exDigest "app/api/x.ts" exTopModule = [exTopRecord])]
          exact List.mem_singleton.mpr rfl),
    rfl, rfl⟩

/-- C3: the transformer does not replace nested annotated functions at all —
contrary to the spec, a nested annotated declaration is never collected
(`walkStatement` notes "not tracking for replacement yet") and the mutation
loop explicitly skips every record whose scope path is not of length 1
("Only handle top-level functions for now"), so a source whose only annotated
function is nested is returned byte-identical with nothing extracted. -/
theorem C3_nested_not_replaced :
    walkModule exDigest "app/x.ts" exNestedModule = [] ∧
    (transform exDigest exNestedSource "app/x.ts").code = exNestedSource.text ∧
    (transform exDigest exNestedSource "app/x.ts").hasSandboxFunctions = false ∧
    (transform exDigest exNestedSource "app/x.ts").sandboxFileContent = none ∧
    exNestedRecord.scopePath.length = 2 ∧
    applyAstMutations exNestedModule [exNestedRecord] = exNestedModule.map .orig :=
  ⟨rfl, rfl, rfl, rfl, rfl, rfl⟩

/-- Bridge between `List.contains` and membership. -/
theorem contains_iff_mem {l : List String} {x : String} :
    l.contains x = true ↔ x ∈ l := List.elem_iff

/-- Counterexample to C5 as stated: in the nested annotated body
`\x7b "use sandbox"; return obj.prefix; \x7d` with parameter `obj` and an
enclosing scope declaring `prefix`, the detector captures `prefix` although it
occurs only as a member-access property name — the spec-side closure set is
empty. -/
theorem C5_member_property_captured :
    detectClosureVars exPropBody ["obj"] [["prefix"]] = ["prefix"] ∧
    specClosureVars exPropBody ["obj"] [["prefix"]] = [] ∧
    detectClosureVars exPropBody ["obj"] [["prefix"]] ≠
      specClosureVars exPropBody ["obj"] [["prefix"]] :=
  ⟨rfl, rfl, by decide⟩

/-- C5 as amended: `detectClosureVars` returns exactly the identifier-node
occurrences its reflective walk collects (which include member-access
property names, object keys and the identifiers of nested functions) that are
neither among the parameters nor among the `Identifier`-formed
`var`/`let`/`const` declarator ids the walk records, are not built-in, and are
declared in some enclosing scope — sorted lexicographically and without
duplicates; in particular a name shadowed by a parameter is never captured. -/
theorem C5_closure_vars_characterized :
    ∀ (body : List Stmt) (params : List String) (chain : List (List String)),
      (∀ x, x ∈ detectClosureVars body params chain ↔
        (x ∈ (crStmts (body.drop 1)).1 ∧ x ∉ params ∧
          x ∉ (crStmts (body.drop 1)).2 ∧
          isBuiltIn x = false ∧ isDeclaredInScope x chain = true)) ∧
      List.Sorted strLeR (detectClosureVars body params chain) ∧
      (detectClosureVars body params chain).Nodup ∧
      (∀ x, x ∈ params → x ∉ detectClosureVars body params chain) := by
  intro body params chain
  have hmem : ∀ x, x ∈ detectClosureVars body params chain ↔
      (x ∈ (crStmts (body.drop 1)).1 ∧ x ∉ params ∧
        x ∉ (crStmts (body.drop 1)).2 ∧
        isBuiltIn x = false ∧ isDeclaredInScope x chain = true) := by
    intro x
    unfold detectClosureVars
    rw [mem_sortStrings, List.mem_filter, List.mem_dedup]
    constructor
    · intro h
      obtain ⟨h1, hp⟩ := h
      rw [Bool.and_eq_true, Bool.and_eq_true, Bool.not_eq_true', Bool.not_eq_true'] at hp
      obtain ⟨⟨hc, hb⟩, hs⟩ := hp
      have hnm : x ∉ params ++ (crStmts (body.drop 1)).2 := by
        intro hm
        rw [contains_iff_mem.mpr hm] at hc
        exact absurd hc (by simp)
      rw [List.mem_append] at hnm
      push_neg at hnm
      exact ⟨h1, hnm.1, hnm.2, hb, hs⟩
    · rintro ⟨h1, h2, h3, h4, h5⟩
      refine ⟨h1, ?_⟩
      rw [Bool.and_eq_true, Bool.and_eq_true, Bool.not_eq_true', Bool.not_eq_true']
      refine ⟨⟨?_, h4⟩, h5⟩
      cases hc : (params ++ (crStmts (body.drop 1)).2).contains x with
      | false => rfl
      | true =>
        have hm := contains_iff_mem.mp hc
        rw [List.mem_append] at hm
        rcases hm with hh | hh
        · exact absurd hh h2
        · exact absurd hh h3
  refine ⟨hmem, ?_, ?_, ?_⟩
  · unfold detectClosureVars
    exact sorted_sortStrings _
  · unfold detectClosureVars
    exact nodup_sortStrings (List.Nodup.filter _ (List.nodup_dedup _))
  · intro x hx hmem'
    exact ((hmem x).mp hmem').2.1 hx

/-- Counterexample to C6 as stated: for the top-level annotated function
`export async function f(\x7b a, b \x7d) \x7b "use sandbox"; return a; \x7d`
the stub's parameter list is the flattened name list `(a, b)` (arity 2), not
the original destructured parameter (arity 1) — the destructured parameter
appears verbatim only in the generated module's exported function. -/
theorem C6_destructured_params_flattened :
    walkModule exDigest "app/x.ts" exDestrModule = [exDestrRecord] ∧
    printParams exDestrParams = "\x7b a, b \x7d" ∧
    exDestrParams.length = 1 ∧
    exDestrRecord.params = ["a", "b"] ∧
    generateStubCode exDestrRecord =
      "async function f(a, b) \x7b\n  return __sandbox_runSandboxFn(\x7b\n    fnId: \"f_8f3a19c2\",\n    args: [a, b]\n  \x7d);\n\x7d" ∧
    strIncludes (generateStubCode exDestrRecord) (printParams exDestrParams) = false ∧
    strIncludes exDestrRecord.fullSource (printParams exDestrParams) = true :=
  ⟨rfl, rfl, rfl, rfl, rfl, rfl, rfl⟩

/-- Substring introduction: a middle factor is always found. -/
theorem isPrefixOfC_self_append : ∀ (s t : List Char), isPrefixOfC s (s ++ t) = true := by
  intro s
  induction s with
  | nil => intro t; rfl
  | cons c cs ih => intro t; simp [isPrefixOfC, ih]

/-- See `isPrefixOfC_self_append`. -/
theorem hasInfixAux_of_isPrefix {nee l : List Char}
    (h : isPrefixOfC nee l = true) : hasInfixAux nee l = true := by
  cases l with
  | nil =>
    cases nee with
    | nil => rfl
    | cons c cs => simp [isPrefixOfC] at h
  | cons c t =>
    show (isPrefixOfC nee (c :: t) || hasInfixAux nee t) = true
    rw [h]
    rfl

/-- See `isPrefixOfC_self_append`. -/
theorem hasInfixAux_append : ∀ (pre nee post : List Char),
    hasInfixAux nee (pre ++ (nee ++ post)) = true := by
  intro pre
  induction pre with
  | nil =>
    intro nee post
    rw [List.nil_append]
    exact hasInfixAux_of_isPrefix (isPrefixOfC_self_append nee post)
  | cons c cs ih =>
    intro nee post
    rw [List.cons_append]
    show (isPrefixOfC nee (c :: (cs ++ (nee ++ post))) ||
      hasInfixAux nee (cs ++ (nee ++ post))) = true
    rw [ih]
    simp

/-- Substring introduction at the string level, stated through the character
lists so that re-association is list-level. -/
theorem strIncludes_factor (s pre mid post : String)
    (h : s.toList = pre.toList ++ (mid.toList ++ post.toList)) :
    strIncludes s mid = true := by
  unfold strIncludes
  rw [h]
  exact hasInfixAux_append _ _ _

/-- C6 as amended: a collected record preserves the original name and
async-ness; for a module-level function the record's `fullSource` (the
generated module's exported function) embeds the printed original parameter
list verbatim; the top-level stub is exactly the template whose parameter
list is the comma-joined extracted parameter names (so arity is preserved
exactly when every parameter is a plain identifier, and destructured or
defaulted parameters are flattened); and the mutation loop preserves the
export wrapper (plain, `export`, `export default`) of a top-level record. -/
theorem C6_stub_preserves_shape :
    (∀ (digest : String → String) (f : String) (chain : List (List String))
        (ps : List Pat) (body : List Stmt) (name : String) (a : Bool)
        (loc : AstLocation),
      (collectSandboxFunction digest f [] chain ps body name a loc).originalName = name ∧
      (collectSandboxFunction digest f [] chain ps body name a loc).isAsync = a ∧
      strIncludes (collectSandboxFunction digest f [] chain ps body name a loc).fullSource
        (printParams ps) = true) ∧
    (∀ r : SandboxFunction, r.scopePath.length = 1 →
      generateStubCode r =
        (if r.isAsync then "async " else "") ++ "function " ++ r.originalName ++ "(" ++
          String.intercalate ", " r.params ++ ") \x7b\n" ++
          "  return __sandbox_runSandboxFn(\x7b\n    fnId: \"" ++ r.fnId ++
          "\",\n    args: " ++
          (if r.params.length > 0 then
            "[" ++ String.intercalate ", " r.params ++ "]" else "[]") ++
          (if r.closureVars.length > 0 then
            ", closureVars: \x7b " ++ String.intercalate ", " r.closureVars ++ " \x7d"
          else "") ++ "\n  \x7d);\n\x7d") ∧
    (∀ names : List String, extractParamNames (names.map .ident) = names) ∧
    (∀ (outs : List OutItem) (r : SandboxFunction) (i : Nat),
      r.scopePath.length = 1 →
      (r.astLocation = .exportDeclLoc i →
        applyOneMutation outs r = outs.set i (.exportStubFn (generateStubCode r))) ∧
      (r.astLocation = .moduleItemLoc i →
        applyOneMutation outs r = outs.set i (.stubFn (generateStubCode r))) ∧
      (r.astLocation = .exportDefaultLoc i →
        applyOneMutation outs r = outs.set i (.exportDefaultStub
          (replaceStubHeadFn (replaceStubHeadAsync (generateStubCode r)))))) := by
  refine ⟨?_, ?_, ?_, ?_⟩
  · intro digest f chain ps body name a loc
    refine ⟨rfl, rfl, ?_⟩
    apply strIncludes_factor _
      ("export async function " ++ generateFnId digest f ([] ++ [name]) ++ "(")
      (printParams ps)
      (") \x7b\n" ++ "  " ++
        (if (body.drop 1).length > 0 then printStmts (body.drop 1) else "") ++ "\n\x7d")
    simp only [collectSandboxFunction]
    simp [String.toList, String.data_append]
  · intro r h
    have h1 : (r.scopePath.length == 1) = true := by
      simp [h]
    simp only [generateStubCode, h1, if_true]
  · intro names
    induction names with
    | nil => rfl
    | cons n ns ih =>
      simp only [List.map, extractParamNames, List.flatMap_cons, fromPattern]
      simpa [extractParamNames] using ih
  · intro outs r i h
    have hne : ¬(r.scopePath.length ≠ 1) := by omega
    refine ⟨fun hloc => ?_, fun hloc => ?_, fun hloc => ?_⟩ <;>
      simp [applyOneMutation, hne, hloc]

/-- Witness for C6: the amended statement applied to the plain-parameter
record of `export async function readFile(path)`. -/
theorem C6_stub_preserves_shape_witness :
    generateStubCode exTopRecord =
      "async function readFile(path) \x7b\n  return __sandbox_runSandboxFn(\x7b\n    fnId: \"readFile_8f3a19c2\",\n    args: [path]\n  \x7d);\n\x7d" ∧
    strIncludes exTopRecord.fullSource (printParams [Pat.ident "path"]) = true ∧
    extractParamNames [Pat.ident "path"] = ["path"] ∧
    applyOneMutation (exTopModule.map .orig) exTopRecord =
      (exTopModule.map .orig).set 0 (.exportStubFn (generateStubCode exTopRecord)) := by
  refine ⟨?_, ?_, ?_, ?_⟩
  · rw [C6_stub_preserves_shape.2.1 exTopRecord rfl]
    rfl
  · exact (C6_stub_preserves_shape.1 exDigest "app/api/x.ts" [["readFile"]]
      [Pat.ident "path"]
      [.exprStmt (.strLit "use sandbox"),
       .returnStmt (some (.member (.ident "path") (.ident "length")))]
      "readFile" true (.exportDeclLoc 0)).2.2
  · exact C6_stub_preserves_shape.2.2.1 ["path"]
  · exact (C6_stub_preserves_shape.2.2.2 (exTopModule.map .orig) exTopRecord 0 rfl).1 rfl

/-- A function declaration with no directive anywhere collects nothing
(helper for C8). -/
theorem collect_nil_fnDecl {digest : String → String} {f : String}
    {sp : List String} {chain : List (List String)} {name : String}
    {ps : List Pat} {b : Option (List Stmt)} {a : Bool} {loc : AstLocation}
    (h : fnBodyHasDirective b = false) :
    walkFunctionDeclCollect digest f sp chain name ps b a loc = [] := by
  cases b with
  | none => rfl
  | some ss =>
    have hd : hasSandboxDirective ss = false := by
      unfold fnBodyHasDirective at h
      exact (Bool.or_eq_false_iff.mp h).1
    simp [walkFunctionDeclCollect, hd]

/-- A function expression with no directive anywhere collects nothing
(helper for C8). -/
theorem collect_nil_fnExpr {digest : String → String} {f : String}
    {sp : List String} {chain : List (List String)} {name : String}
    {ps : List Pat} {b : Option (List Stmt)} {a : Bool} {loc : AstLocation}
    (h : (match b with
      | some ss => hasSandboxDirective ss
      | none => false) = false) :
    walkFunctionExprCollect digest f sp chain name ps b a loc = [] := by
  cases b with
  | none => rfl
  | some ss =>
    have hd : hasSandboxDirective ss = false := h
    simp [walkFunctionExprCollect, hd]

/-- A declarator initialiser with no directive anywhere collects nothing
(helper for C8). -/
theorem collect_nil_init {digest : String → String} {f : String}
    {cur' : List String} {name : String} {loc : AstLocation} {init : Option Expr}
    (h : (match init with
      | some e => exprHasDirective e
      | none => false) = false) :
    (match fnInitView init with
      | some (ps, bb, a) => walkFunctionExprCollect digest f [] [cur'] name ps bb a loc
      | none => []) = [] := by
  cases init with
  | none => rfl
  | some e =>
    cases e with
    | fnExpr i ps b a =>
      have hb : fnBodyHasDirective b = false := by
        simpa [exprHasDirective] using h
      cases b with
      | none => rfl
      | some ss =>
        have hd : hasSandboxDirective ss = false :=
          (Bool.or_eq_false_iff.mp (by simpa [fnBodyHasDirective] using hb)).1
        simp [fnInitView, walkFunctionExprCollect, hd]
    | arrowBlock ps ss a =>
      have hd : hasSandboxDirective ss = false :=
        (Bool.or_eq_false_iff.mp (by simpa [exprHasDirective] using h)).1
      simp [fnInitView, walkFunctionExprCollect, hd]
    | arrowExprBody ps eb a => rfl
    | ident v => rfl
    | strLit v => rfl
    | numLit v => rfl
    | call c args => rfl
    | superCallee => rfl
    | importCallee => rfl
    | member o p => rfl
    | objectLit props => rfl
    | arrayLit elems => rfl
    | cond t c alt => rfl
    | binary l rr => rfl
    | unary arg => rfl
    | awaitExpr arg => rfl
    | assign l rr => rfl
    | templateLit es => rfl
    | otherExpr => rfl

/-- A declarator list with no directive anywhere collects nothing
(helper for C8). -/
theorem collect_nil_varDecl {digest : String → String} {f : String}
    {mi : Nat} {ex : Bool} :
    ∀ (ds : List VarDeclarator) (di : Nat) (cur : List String),
      declsHaveDirective ds = false →
      (walkVarDeclCollect digest f cur mi ex ds di).2 = [] := by
  intro ds
  induction ds with
  | nil => intro di cur h; rfl
  | cons d rest ih =>
    intro di cur h
    obtain ⟨pid, init⟩ := d
    simp only [walkVarDeclCollect]
    cases init with
    | none =>
      have hrest : declsHaveDirective rest = false := h
      rw [ih _ _ hrest]
      rfl
    | some e =>
      have h' : (exprHasDirective e || declsHaveDirective rest) = false := h
      have hsplit := Bool.or_eq_false_iff.mp h'
      have he : (match (some e : Option Expr) with
        | some e => exprHasDirective e
        | none => false) = false := hsplit.1
      rw [collect_nil_init he, ih _ _ hsplit.2]
      rfl

/-- A module item with no directive anywhere collects nothing (helper for C8). -/
theorem collect_nil_item {digest : String → String} {f : String}
    {cur : List String} {i : Nat} {item : ModuleItem}
    (h : moduleItemHasDirective item = false) :
    (walkModuleItemCollect digest f cur item i).2 = [] := by
  cases item with
  | fnDeclItem name ps b isAsync =>
    exact collect_nil_fnDecl (by simpa [moduleItemHasDirective] using h)
  | exportFnDecl name ps b isAsync =>
    exact collect_nil_fnDecl (by simpa [moduleItemHasDirective] using h)
  | exportVarDecl ds =>
    exact collect_nil_varDecl ds 0 cur (by simpa [moduleItemHasDirective] using h)
  | varDeclItem ds =>
    exact collect_nil_varDecl ds 0 cur (by simpa [moduleItemHasDirective] using h)
  | exportDefaultFnExpr ident ps b isAsync =>
    have hb : fnBodyHasDirective b = false := by simpa [moduleItemHasDirective] using h
    cases b with
    | none => rfl
    | some ss =>
      have hd : hasSandboxDirective ss = false :=
        (Bool.or_eq_false_iff.mp (by simpa [fnBodyHasDirective] using hb)).1
      simp [walkModuleItemCollect, walkFunctionExprCollect, hd]
  | exportOtherDecl => rfl
  | exportDefaultOther => rfl
  | importDecl t sp src => rfl
  | stmtItem s => rfl
  | otherItem => rfl

/-- A module with no directive anywhere collects nothing (helper for C8). -/
theorem collect_nil_items {digest : String → String} {f : String} :
    ∀ (items : List ModuleItem) (idx : Nat) (cur : List String),
      (∀ it ∈ items, moduleItemHasDirective it = false) →
      walkModuleItemsCollect digest f items idx cur = [] := by
  intro items
  induction items with
  | nil => intro idx cur h; rfl
  | cons item rest ih =>
    intro idx cur h
    simp only [walkModuleItemsCollect]
    rw [collect_nil_item (h item (List.mem_cons_self item rest)),
      ih _ _ (fun it hit => h it (List.mem_cons_of_mem item hit))]
    rfl

/-- C8: `transform` returns the source byte-identical when the module contains
no `use sandbox` directive (at any nesting depth), and the loader returns an
already-transformed source byte-identical, detecting prior transformation by
the presence of the `__sandbox_runSandboxFn` binding. -/
theorem C8_transform_identity :
    (∀ (digest : String → String) (src : SourceFile) (filename : String),
      moduleHasDirective src.ast = false →
      (transform digest src filename).code = src.text ∧
      (transform digest src filename).hasSandboxFunctions = false) ∧
    (∀ (digest : String → String) (src : SourceFile) (resourcePath : String),
      strIncludes src.text "__sandbox_runSandboxFn" = true →
      sandboxLoader digest src resourcePath = src.text) := by
  constructor
  · intro digest src filename h
    have hitems : ∀ it ∈ src.ast, ¬moduleItemHasDirective it = true :=
      List.any_eq_false.mp h
    have hwalk : walkModule digest (normalizeFilename filename) src.ast = [] :=
      collect_nil_items src.ast 0 []
        (fun it hit => Bool.not_eq_true _ ▸ (by simpa using hitems it hit))
    cases hinc : strIncludes src.text "use sandbox" with
    | false => constructor <;> simp [transform, hinc]
    | true => constructor <;> simp [transform, hinc, hwalk]
  · intro digest src resourcePath h
    simp [sandboxLoader, h]

/-- Witness for C8: a directive-free source transforms to itself, and an
already-transformed source passes the loader unchanged. -/
theorem C8_transform_identity_witness :
    moduleHasDirective exPlainSource.ast = false ∧
    (transform exDigest exPlainSource "app/p.ts").code = exPlainSource.text ∧
    strIncludes exTransformedSource.text "__sandbox_runSandboxFn" = true ∧
    sandboxLoader exDigest exTransformedSource "app/t.ts" = exTransformedSource.text :=
  ⟨rfl, (C8_transform_identity.1 exDigest exPlainSource "app/p.ts" rfl).1, rfl,
    C8_transform_identity.2 exDigest exTransformedSource "app/t.ts" rfl⟩

/-- Directory extensionality. -/
theorem dir_ext {d1 d2 : Dir} (h1 : d1.names = d2.names)
    (h2 : ∀ x, d1.content x = d2.content x) : d1 = d2 := by
  cases d1
  cases d2
  simp only at h1 h2
  subst h1
  congr 1
  exact funext h2

/-- Contents after the temp-write loop: the last matching registration wins,
otherwise the directory is untouched. -/
theorem writeAllTemp_content (root : String) :
    ∀ (m : List (String × String)) (d : Dir) (x : String),
      (writeAllTemp root m d).content x =
        (match lastWriteVal root m x with
          | some v => some v
          | none => d.content x) := by
  intro m
  induction m with
  | nil => intro d x; rfl
  | cons kv m' ih =>
    intro d x
    show (writeAllTemp root m' (dirWrite d (safeTempName root kv.1) kv.2)).content x = _
    rw [ih]
    have hrev : (kv :: m').reverse = m'.reverse ++ [kv] := by simp
    have hsplit : lastWriteVal root (kv :: m') x =
        ((m'.reverse.find? (fun p => safeTempName root p.1 == x)).or
          (if safeTempName root kv.1 == x then some kv else none)).map (·.2) := by
      unfold lastWriteVal
      rw [hrev, List.find?_append]
      cases hb : safeTempName root kv.1 == x
      · simp [List.find?, hb]
      · simp [List.find?, hb]
    cases hlast : m'.reverse.find? (fun p => safeTempName root p.1 == x) with
    | some pv =>
      have h1 : lastWriteVal root m' x = some pv.2 := by
        unfold lastWriteVal
        rw [hlast]
        rfl
      have h2 : lastWriteVal root (kv :: m') x = some pv.2 := by
        rw [hsplit, hlast]
        rfl
      rw [h1, h2]
    | none =>
      have h1 : lastWriteVal root m' x = none := by
        unfold lastWriteVal
        rw [hlast]
        rfl
      rw [h1, hsplit, hlast]
      by_cases hx : safeTempName root kv.1 = x
      · have hb : (safeTempName root kv.1 == x) = true := beq_iff_eq.mpr hx
        rw [hb]
        simp only [if_true, Option.none_or, Option.map_some']
        show (if x = safeTempName root kv.1 then some kv.2 else d.content x) = some kv.2
        rw [if_pos hx.symm]
      · have hb : (safeTempName root kv.1 == x) = false := beq_eq_false_iff_ne.mpr hx
        rw [hb]
        simp only [Bool.false_eq_true, if_false, Option.none_or, Option.map_none']
        show (if x = safeTempName root kv.1 then some kv.2 else d.content x) = d.content x
        rw [if_neg (fun hc => hx hc.symm)]

/-- Membership in the names of a written directory. -/
theorem mem_dirWrite_names {d : Dir} {n c x : String} :
    x ∈ (dirWrite d n c).names ↔ x ∈ d.names ∨ x = n := by
  unfold dirWrite
  by_cases hc : d.names.contains n = true
  · rw [if_pos hc]
    constructor
    · exact Or.inl
    · rintro (h | h)
      · exact h
      · subst h; exact contains_iff_mem.mp hc
  · rw [if_neg hc]
    simp [List.mem_append]

/-- Membership in the names after the temp-write loop. -/
theorem mem_writeAllTemp_names (root : String) :
    ∀ (m : List (String × String)) (d : Dir) (x : String),
      x ∈ (writeAllTemp root m d).names ↔
        x ∈ d.names ∨ ∃ kv ∈ m, safeTempName root kv.1 = x := by
  intro m
  induction m with
  | nil => intro d x; simp [writeAllTemp]
  | cons kv m' ih =>
    intro d x
    show x ∈ (writeAllTemp root m' (dirWrite d (safeTempName root kv.1) kv.2)).names ↔ _
    rw [ih, mem_dirWrite_names, List.exists_mem_cons_iff]
    constructor
    · rintro ((h | h) | h)
      · exact Or.inl h
      · exact Or.inr (Or.inl h.symm)
      · exact Or.inr (Or.inr h)
    · rintro (h | h | h)
      · exact Or.inl (Or.inl h)
      · exact Or.inl (Or.inr h.symm)
      · exact Or.inr h

/-- The temp-write loop adds no name already present. -/
theorem writeAllTemp_names_fixed (root : String) :
    ∀ (m : List (String × String)) (d : Dir),
      (∀ kv ∈ m, safeTempName root kv.1 ∈ d.names) →
      (writeAllTemp root m d).names = d.names := by
  intro m
  induction m with
  | nil => intro d _; rfl
  | cons kv m' ih =>
    intro d h
    have hn : safeTempName root kv.1 ∈ d.names := h kv (List.mem_cons_self kv m')
    have hw : (dirWrite d (safeTempName root kv.1) kv.2).names = d.names := by
      unfold dirWrite
      rw [if_pos (contains_iff_mem.mpr hn)]
    show (writeAllTemp root m' (dirWrite d (safeTempName root kv.1) kv.2)).names = d.names
    rw [ih _ (fun kv' hkv' => by
      rw [hw]; exact h kv' (List.mem_cons_of_mem kv hkv')), hw]

/-- Files found by the scan are sandbox files not starting with an underscore. -/
theorem isBundled_of_mem_files {d : Dir} {f : String}
    (h : f ∈ bundlerFilesOf d) : isBundledName f = true :=
  (List.mem_filter.mp (mem_sortStrings.mp h)).2

/-- The entry file never passes the scan filter. -/
theorem entry_not_bundled : isBundledName "_sandbox_entry.ts" = false := by decide

/-- A second pass of the temp-write loop, possibly after an entry-file write,
changes neither the scanned file list nor the hashed content (helper for C9). -/
theorem scan_preserved (root : String) (m : List (String × String)) (d : Dir)
    (T2 : Dir)
    (hnames : T2.names = (writeAllTemp root m d).names ∨
      T2.names = (writeAllTemp root m d).names ++ ["_sandbox_entry.ts"])
    (hcontent : ∀ x, isBundledName x = true →
      T2.content x = (writeAllTemp root m d).content x) :
    bundlerFilesOf (writeAllTemp root m T2) = bundlerFilesOf (writeAllTemp root m d) ∧
    bundlerCombinedOf (writeAllTemp root m T2) = bundlerCombinedOf (writeAllTemp root m d) := by
  have hsub : ∀ kv ∈ m, safeTempName root kv.1 ∈ T2.names := by
    intro kv hkv
    have h1 : safeTempName root kv.1 ∈ (writeAllTemp root m d).names :=
      (mem_writeAllTemp_names root m d _).mpr (Or.inr ⟨kv, hkv, rfl⟩)
    rcases hnames with hn | hn
    · rw [hn]; exact h1
    · rw [hn, List.mem_append]; exact Or.inl h1
  have hnames2 : (writeAllTemp root m T2).names = T2.names :=
    writeAllTemp_names_fixed root m T2 hsub
  have hfilter : (writeAllTemp root m T2).names.filter isBundledName =
      (writeAllTemp root m d).names.filter isBundledName := by
    rw [hnames2]
    rcases hnames with hn | hn
    · rw [hn]
    · rw [hn, List.filter_append]
      simp [entry_not_bundled]
  have hfiles : bundlerFilesOf (writeAllTemp root m T2) =
      bundlerFilesOf (writeAllTemp root m d) := by
    unfold bundlerFilesOf
    rw [hfilter]
  refine ⟨hfiles, ?_⟩
  unfold bundlerCombinedOf
  rw [hfiles]
  congr 1
  apply List.map_congr_left
  intro f hf
  have hbundled := isBundled_of_mem_files hf
  rw [writeAllTemp_content, writeAllTemp_content]
  cases hlast : lastWriteVal root m f with
  | some v => rfl
  | none =>
    have hc := hcontent f hbundled
    rw [writeAllTemp_content, hlast] at hc
    rw [hc]

/-- C9: the bundler's digest is a pure function of the generated modules'
contents concatenated in sorted name order; a run whose digest matches the
in-process record of the last-written digest (`lastBundleHash`) writes nothing
to the output directory; and re-running with no change to the registered
modules produces the same digest and rewrites neither the bundle file nor the
manifest. -/
theorem C9_bundler_idempotence :
    ∀ (digest16 esbuild : String → String) (now1 now2 root : String)
      (st : BundlerState),
      ((generateBundleSync digest16 esbuild now1 root st).1 = none →
        (generateBundleSync digest16 esbuild now1 root st).2.outputDir = st.outputDir) ∧
      (∀ res, (generateBundleSync digest16 esbuild now1 root st).1 = some res →
        res.bundleHash = bundlerHashOf digest16 root st ∧
        res.bundlePath = "bundle-" ++ res.bundleHash ++ ".js" ∧
        (generateBundleSync digest16 esbuild now1 root st).2.lastBundleHash =
          some res.bundleHash) ∧
      (st.lastBundleHash = some (bundlerHashOf digest16 root st) →
        (generateBundleSync digest16 esbuild now1 root st).1 = none ∧
        (generateBundleSync digest16 esbuild now1 root st).2.outputDir = st.outputDir) ∧
      ((generateBundleSync digest16 esbuild now2 root
          (generateBundleSync digest16 esbuild now1 root st).2).1 = none ∧
        (generateBundleSync digest16 esbuild now2 root
          (generateBundleSync digest16 esbuild now1 root st).2).2.outputDir =
          (generateBundleSync digest16 esbuild now1 root st).2.outputDir) := by
  intro digest16 esbuild now1 now2 root st
  cases hf : (bundlerFilesOf (writeAllTemp root st.sandboxFilesMap st.tempDir)).isEmpty with
  | true =>
    have hrun : generateBundleSync digest16 esbuild now1 root st =
        (none, { st with tempDir := writeAllTemp root st.sandboxFilesMap st.tempDir }) := by
      simp only [generateBundleSync, bundlerTempAfter, hf, if_true]
    have hidem := scan_preserved root st.sandboxFilesMap st.tempDir
      (writeAllTemp root st.sandboxFilesMap st.tempDir) (Or.inl rfl) (fun _ _ => rfl)
    have hf2 : (bundlerFilesOf (writeAllTemp root st.sandboxFilesMap
        (writeAllTemp root st.sandboxFilesMap st.tempDir))).isEmpty = true := by
      rw [hidem.1]; exact hf
    have hrun2 : generateBundleSync digest16 esbuild now2 root
        { st with tempDir := writeAllTemp root st.sandboxFilesMap st.tempDir } =
        (none, { st with tempDir := (writeAllTemp root st.sandboxFilesMap (writeAllTemp root st.sandboxFilesMap st.tempDir)) }) := by
      simp only [generateBundleSync, hf2, if_true]
    refine ⟨fun _ => by rw [hrun], fun res hres => ?_, fun _ => by rw [hrun]; exact ⟨rfl, rfl⟩, ?_⟩
    · rw [hrun] at hres; exact absurd hres (by simp)
    · rw [hrun, hrun2]
      exact ⟨rfl, rfl⟩
  | false =>
    cases hh : st.lastBundleHash ==
        some (digest16 (bundlerCombinedOf (writeAllTemp root st.sandboxFilesMap st.tempDir))) with
    | true =>
      have hrun : generateBundleSync digest16 esbuild now1 root st =
          (none, { st with tempDir := writeAllTemp root st.sandboxFilesMap st.tempDir }) := by
        simp only [generateBundleSync, hf, Bool.false_eq_true, if_false, hh, if_true]
      have hidem := scan_preserved root st.sandboxFilesMap st.tempDir
        (writeAllTemp root st.sandboxFilesMap st.tempDir) (Or.inl rfl) (fun _ _ => rfl)
      have hf2 : (bundlerFilesOf (writeAllTemp root st.sandboxFilesMap
          (writeAllTemp root st.sandboxFilesMap st.tempDir))).isEmpty = false := by
        rw [hidem.1]; exact hf
      have hh2 : (({ st with tempDir := writeAllTemp root st.sandboxFilesMap st.tempDir
          : BundlerState }).lastBundleHash ==
          some (digest16 (bundlerCombinedOf (writeAllTemp root st.sandboxFilesMap
            (writeAllTemp root st.sandboxFilesMap st.tempDir))))) = true := by
        show (st.lastBundleHash == _) = true
        rw [hidem.2]
        exact hh
      have hrun2 : generateBundleSync digest16 esbuild now2 root
          { st with tempDir := writeAllTemp root st.sandboxFilesMap st.tempDir } =
          (none, { st with tempDir := (writeAllTemp root st.sandboxFilesMap (writeAllTemp root st.sandboxFilesMap st.tempDir)) }) := by
        simp only [generateBundleSync, hf2, Bool.false_eq_true, if_false, hh2, if_true]
      refine ⟨fun _ => by rw [hrun], fun res hres => ?_, fun _ => by rw [hrun]; exact ⟨rfl, rfl⟩, ?_⟩
      · rw [hrun] at hres; exact absurd hres (by simp)
      · rw [hrun, hrun2]
        exact ⟨rfl, rfl⟩
    | false =>
      have hrun : generateBundleSync digest16 esbuild now1 root st =
          (some ⟨("bundle-" ++ digest16 (bundlerCombinedOf (writeAllTemp root st.sandboxFilesMap st.tempDir)) ++ ".js"),
            (digest16 (bundlerCombinedOf (writeAllTemp root st.sandboxFilesMap st.tempDir))),
            (bundlerFilesOf (writeAllTemp root st.sandboxFilesMap st.tempDir))⟩,
          { tempDir := (dirWrite (writeAllTemp root st.sandboxFilesMap st.tempDir) "_sandbox_entry.ts" (String.intercalate "\n" ((bundlerFilesOf (writeAllTemp root st.sandboxFilesMap st.tempDir)).map (fun f => "export * from \"./" ++ basenameStr f ++ "\";")))),
            outputDir := (dirWrite (dirWrite st.outputDir ("bundle-" ++ digest16 (bundlerCombinedOf (writeAllTemp root st.sandboxFilesMap st.tempDir)) ++ ".js") (esbuild (bundlerCombinedOf (writeAllTemp root st.sandboxFilesMap st.tempDir)))) "manifest.json" (manifestJson (digest16 (bundlerCombinedOf (writeAllTemp root st.sandboxFilesMap st.tempDir))) ("bundle-" ++ digest16 (bundlerCombinedOf (writeAllTemp root st.sandboxFilesMap st.tempDir)) ++ ".js") now1 (bundlerFilesOf (writeAllTemp root st.sandboxFilesMap st.tempDir))).render),
            sandboxFilesMap := st.sandboxFilesMap,
            lastBundleHash := (some (digest16 (bundlerCombinedOf (writeAllTemp root st.sandboxFilesMap st.tempDir)))) }) := by
        simp only [generateBundleSync, hf, Bool.false_eq_true, if_false, hh]
      have hT2names : (dirWrite (writeAllTemp root st.sandboxFilesMap st.tempDir)
          "_sandbox_entry.ts" (String.intercalate "\n"
            ((bundlerFilesOf (writeAllTemp root st.sandboxFilesMap st.tempDir)).map
              (fun f => "export * from \"./" ++ basenameStr f ++ "\";")))).names =
          (writeAllTemp root st.sandboxFilesMap st.tempDir).names ∨
          (dirWrite (writeAllTemp root st.sandboxFilesMap st.tempDir)
          "_sandbox_entry.ts" (String.intercalate "\n"
            ((bundlerFilesOf (writeAllTemp root st.sandboxFilesMap st.tempDir)).map
              (fun f => "export * from \"./" ++ basenameStr f ++ "\";")))).names =
          (writeAllTemp root st.sandboxFilesMap st.tempDir).names ++ ["_sandbox_entry.ts"] := by
        unfold dirWrite
        by_cases hc : (writeAllTemp root st.sandboxFilesMap st.tempDir).names.contains
            "_sandbox_entry.ts" = true
        · rw [if_pos hc]; exact Or.inl rfl
        · rw [if_neg hc]; exact Or.inr rfl
      have hT2content : ∀ x, isBundledName x = true →
          (dirWrite (writeAllTemp root st.sandboxFilesMap st.tempDir)
            "_sandbox_entry.ts" (String.intercalate "\n"
              ((bundlerFilesOf (writeAllTemp root st.sandboxFilesMap st.tempDir)).map
                (fun f => "export * from \"./" ++ basenameStr f ++ "\";")))).content x =
          (writeAllTemp root st.sandboxFilesMap st.tempDir).content x := by
        intro x hx
        show (if x = "_sandbox_entry.ts" then _ else _) = _
        rw [if_neg (fun hc => by rw [hc] at hx; exact absurd hx (by decide))]
      have hscan := scan_preserved root st.sandboxFilesMap st.tempDir _ hT2names hT2content
      have hf2 : (bundlerFilesOf (writeAllTemp root st.sandboxFilesMap
          (dirWrite (writeAllTemp root st.sandboxFilesMap st.tempDir)
            "_sandbox_entry.ts" (String.intercalate "\n"
              ((bundlerFilesOf (writeAllTemp root st.sandboxFilesMap st.tempDir)).map
                (fun f => "export * from \"./" ++ basenameStr f ++ "\";")))))).isEmpty = false := by
        rw [hscan.1]; exact hf
      have hh2 : ((some (digest16 (bundlerCombinedOf (writeAllTemp root
          st.sandboxFilesMap st.tempDir))) : Option String) ==
          some (digest16 (bundlerCombinedOf (writeAllTemp root st.sandboxFilesMap
            (dirWrite (writeAllTemp root st.sandboxFilesMap st.tempDir)
              "_sandbox_entry.ts" (String.intercalate "\n"
                ((bundlerFilesOf (writeAllTemp root st.sandboxFilesMap st.tempDir)).map
                  (fun f => "export * from \"./" ++ basenameStr f ++ "\";")))))))) = true := by
        rw [hscan.2]
        exact beq_self_eq_true _
      refine ⟨fun hres => by rw [hrun] at hres; exact absurd hres (by simp),
        fun res hres => ?_, fun hlast => ?_, ?_⟩
      · rw [hrun] at hres
        have heq : some res = some (⟨("bundle-" ++ digest16 (bundlerCombinedOf (writeAllTemp root st.sandboxFilesMap st.tempDir)) ++ ".js"),
            (digest16 (bundlerCombinedOf (writeAllTemp root st.sandboxFilesMap st.tempDir))),
            (bundlerFilesOf (writeAllTemp root st.sandboxFilesMap st.tempDir))⟩ : BundleResultM) := hres.symm
        have heq2 := Option.some.inj heq
        rw [heq2, hrun]
        exact ⟨rfl, rfl, rfl⟩
      · exfalso
        have hx : (st.lastBundleHash == some (digest16 (bundlerCombinedOf (writeAllTemp root
            st.sandboxFilesMap st.tempDir)))) = true := by
          rw [hlast]
          exact beq_self_eq_true _
        rw [hx] at hh
        exact absurd hh (by simp)
      · have hrun2 : generateBundleSync digest16 esbuild now2 root
            ((generateBundleSync digest16 esbuild now1 root st).2) =
            (none, { (generateBundleSync digest16 esbuild now1 root st).2 with
              tempDir := (writeAllTemp root st.sandboxFilesMap (dirWrite (writeAllTemp root st.sandboxFilesMap st.tempDir) "_sandbox_entry.ts" (String.intercalate "\n" ((bundlerFilesOf (writeAllTemp root st.sandboxFilesMap st.tempDir)).map (fun f => "export * from \"./" ++ basenameStr f ++ "\";"))))) }) := by
          rw [hrun]
          simp only [generateBundleSync, hf2, Bool.false_eq_true, if_false, hh2, if_true]
        rw [hrun2]
        exact ⟨rfl, rfl⟩

/-- Witness: on a state registering one sandbox file whose recorded
`lastBundleHash` already matches the digest, the bundler returns no result and
leaves the output directory untouched. -/
theorem C9_bundler_idempotence_witness :
    (⟨⟨[], fun _ => none⟩, ⟨[], fun _ => none⟩, [("proj/app/x.sandbox.ts", "c1")],
        some "aaaa111122223333"⟩ : BundlerState).lastBundleHash =
      some (bundlerHashOf (fun _ => "aaaa111122223333") "proj"
        ⟨⟨[], fun _ => none⟩, ⟨[], fun _ => none⟩, [("proj/app/x.sandbox.ts", "c1")],
          some "aaaa111122223333"⟩) ∧
    ((generateBundleSync (fun _ => "aaaa111122223333") (fun _ => "out") "t1" "proj"
        ⟨⟨[], fun _ => none⟩, ⟨[], fun _ => none⟩, [("proj/app/x.sandbox.ts", "c1")],
          some "aaaa111122223333"⟩).1 = none ∧
      (generateBundleSync (fun _ => "aaaa111122223333") (fun _ => "out") "t1" "proj"
        ⟨⟨[], fun _ => none⟩, ⟨[], fun _ => none⟩, [("proj/app/x.sandbox.ts", "c1")],
          some "aaaa111122223333"⟩).2.outputDir =
        (⟨⟨[], fun _ => none⟩, ⟨[], fun _ => none⟩, [("proj/app/x.sandbox.ts", "c1")],
          some "aaaa111122223333"⟩ : BundlerState).outputDir) :=
  ⟨rfl,
    (C9_bundler_idempotence (fun _ => "aaaa111122223333") (fun _ => "out") "t1" "t2" "proj"
      ⟨⟨[], fun _ => none⟩, ⟨[], fun _ => none⟩, [("proj/app/x.sandbox.ts", "c1")],
        some "aaaa111122223333"⟩).2.2.1 rfl⟩

end UseSandbox
